import Mathlib

/-!
Verification of the oav traffic-validation core: a shallow embedding of
`src/lib/liveValidation/operationValidator.ts` (the unnamed source file:
response validation, issue classification, content-type gate, LRO checks)
and of `src/lib/swaggerValidator/trafficValidator.ts` (the coverage
aggregator), together with theorems settling the frozen claims about them.

Strings are modelled by Lean `String`; every string operation the source
uses (`toLowerCase`, `split`, `startsWith`, `substr`, `includes`,
lexicographic `<`) is given an executable definition over the underlying
character list so that concrete runs reduce inside the kernel.  JavaScript
objects used as string-keyed maps are modelled as association lists in
insertion order, which is exactly the iteration order of `Object.keys` for
the non-integer keys the source uses.
-/

/-! ## JavaScript string and object primitives -/

/-- Lower-cases an ASCII letter, models the effect of
`String.prototype.toLowerCase` on one character. -/
def jsCharLower (c : Char) : Char :=
  if 65 ≤ c.toNat ∧ c.toNat ≤ 90 then Char.ofNat (c.toNat + 32) else c

/-- Models `String.prototype.toLowerCase` (ASCII range). -/
def jsToLower (s : String) : String := ⟨s.data.map jsCharLower⟩

/-- Lexicographic comparison of character lists by code point; models the
JavaScript `<` and `>` operators on strings (which compare code units; the
two orders agree on the Basic Multilingual Plane). -/
def charListLeB : List Char → List Char → Bool
  | [], _ => true
  | _ :: _, [] => false
  | a :: as, b :: bs =>
    if a.toNat < b.toNat then true
    else if b.toNat < a.toNat then false
    else charListLeB as bs

/-- Non-strict lexicographic string order, `a <= b` in JavaScript. -/
def jsStrLeB (a b : String) : Bool := charListLeB a.data b.data

/-- Decides whether `n` occurs as a contiguous substring of `h`. -/
def listContainsSub : List Char → List Char → Bool
  | _, [] => true
  | [], _ :: _ => false
  | h :: t, n :: ns => (List.isPrefixOf (n :: ns) (h :: t)) || listContainsSub t (n :: ns)

/-- Models `String.prototype.includes`. -/
def jsIncludes (s t : String) : Bool := listContainsSub s.data t.data

/-- Models `String.prototype.startsWith`. -/
def jsStartsWith (s p : String) : Bool := List.isPrefixOf p.data s.data

/-- Models `String.prototype.substr(n)`: the suffix from character index n. -/
def jsDropChars (s : String) (n : Nat) : String := ⟨s.data.drop n⟩

/-- Character count of a string; models `String.prototype.length` (the two
agree on the Basic Multilingual Plane). -/
def jsLength (s : String) : Nat := s.data.length

/-- Split helper for `jsSplitOn`. -/
def jsSplitOnAux (sep : Char) : List Char → List Char → List String
  | [], acc => [⟨acc.reverse⟩]
  | c :: rest, acc =>
    if c = sep then ⟨acc.reverse⟩ :: jsSplitOnAux sep rest []
    else jsSplitOnAux sep rest (c :: acc)

/-- Models `String.prototype.split` with a one-character separator. -/
def jsSplitOn (s : String) (sep : Char) : List String := jsSplitOnAux sep s.data []

/-- Models `parseInt(s, 10)`: skip leading whitespace, optional sign, then
the longest digit run; `none` models `NaN` (every comparison with `NaN` is
false at the use sites). -/
def parseIntJS (s : String) : Option Int :=
  let run : List Char → Option Nat := fun cs =>
    match cs.takeWhile Char.isDigit with
    | [] => none
    | ds => some (ds.foldl (fun n c => n * 10 + (c.toNat - 48)) 0)
  let cs := s.data.dropWhile Char.isWhitespace
  match cs with
  | '-' :: rest => (run rest).map (fun n => -(n : Int))
  | '+' :: rest => (run rest).map (fun n => (n : Int))
  | _ => (run cs).map (fun n => (n : Int))

/-- Models assignment `m[k] = v` on a JavaScript object used as a map:
replaces the value in place when the key exists (object keys are unique),
otherwise appends the key in insertion order. -/
def jsObjSet {β : Type} : List (String × β) → String → β → List (String × β)
  | [], k, v => [(k, v)]
  | (a, b) :: t, k, v => if a = k then (k, v) :: t else (a, b) :: jsObjSet t k v

/-- Models `Array.prototype.join(sep)`. -/
def jsJoin (sep : String) : List String → String
  | [] => ""
  | [s] => s
  | s :: rest => s ++ sep ++ jsJoin sep rest

/-! ## Externals of the core, modelled from the spec

The error-metadata table, message formatter, JSON-pointer conversion and
the source-map utilities live outside `src/`; the spec describes them as
pure lookups and formatters keyed by the error code and its parameters, so
they are modelled as injective tagging functions of exactly those inputs. -/

/-- Severity and documentation metadata for an error code. -/
structure ErrorMetadata where
  severity : String
  docUrl : String
deriving DecidableEq

/-- Modelled from the spec: `errorCodeToErrorMetadata` from
`util/validationError` is a fixed lookup table from error code to severity
and documentation link; severity and documentation are derived solely from
the code. -/
def errorCodeToErrorMetadata (code : String) : ErrorMetadata :=
  { severity := "severity/" ++ code, docUrl := "docs/" ++ code }

/-- Modelled from the spec: `getValidateErrorMessage` from
`swaggerValidator/schemaValidator` regenerates a human-readable message as
a pure function of the error code and its named parameters. -/
def getValidateErrorMessage (code : String) (params : List (String × String)) : String :=
  let render : List (String × String) → String :=
    fun ps => jsJoin "&" (ps.map fun kv => kv.1 ++ "=" ++ kv.2)
  "message/" ++ code ++ "?" ++ render params

/-- Modelled from the spec: `jsonPathToPointer` from `util/jsonUtils`
converts a JSON path into its JSON-Pointer equivalent; modelled as an
injective tagging of the path. -/
def jsonPathToPointer (p : String) : String := "pointer:" ++ p

/-! ## Data model of the operation validator (the unnamed source file) -/

/-- Transient per-call validation context (`SchemaValidateContext` plus the
response-only fields the source adds at the call sites). -/
structure SchemaValidateContext where
  isResponse : Bool
  includeErrors : Option (List String)
  statusCode : Option String
  httpMethod : Option String
deriving DecidableEq

/-- One conformance violation.  `sourceUrl` models `source.url`; a raw
schema issue may arrive with an empty url (falsy in the source).  `params`
carries the raw message parameters of a `SchemaValidateIssue` (the source
casts the raw issue in place, so one record models both).  `issueSource`
models the tag the traffic aggregator adds. -/
structure LiveValidationIssue where
  code : String
  severity : String
  message : String
  jsonPathsInPayload : List String
  pathsInPayload : List String
  schemaPath : String
  sourceUrl : String
  docUrl : String
  params : List String
  issueSource : Option String
deriving DecidableEq

/-- Normalized payload handed to a compiled response validator. -/
structure ResponsePayload where
  headers : List (String × String)
  body : Option String

/-- A response definition: whether a schema is declared, the memoized
compiled validator (`_validate`), and the declared header transforms.  The
validator itself is an external collaborator, kept as a function value. -/
structure Response where
  schema : Bool
  _validate : Option (SchemaValidateContext → ResponsePayload → List LiveValidationIssue)
  _headerTransform : Option (List (String × (String → String)))

/-- The declared contract of one operation, restricted to the fields the
embedded functions read.  `lro` models the `x-ms-long-running-operation`
flag, `responsesInfo` the source-map info of the `responses` object that
the external `getInfo` returns for issue source locations. -/
structure Operation where
  lro : Bool
  _method : String
  responses : List (String × Response)
  responsesInfo : String
  consumes : List String
  produces : List String
  specFilePath : String
  _headerTransform : Option (List (String × (String → String)))

/-- An observed response from a traffic sample. -/
structure LiveResponse where
  statusCode : String
  headers : List (String × String)
  body : Option String

/-! ## Operation validator functions (translated from the unnamed file) -/

/-- Builds a `LiveValidationIssue` from an error code: severity and
documentation from the metadata table, message from the formatter, source
location from the related schema object when one is passed. -/
def issueFromErrorCode (code : String) (params : List (String × String))
    (relatedInfo : Option String) : LiveValidationIssue :=
  let meta := errorCodeToErrorMetadata code
  { code := code
    severity := meta.severity
    message := getValidateErrorMessage code params
    jsonPathsInPayload := []
    pathsInPayload := []
    schemaPath := ""
    sourceUrl := relatedInfo.getD ""
    docUrl := meta.docUrl
    params := []
    issueSource := none }

/-- Applies declared per-key transforms to a string-valued map; the header
instantiation of the source `transformMapValue` (header values are always
strings, so the array branch of the source cannot fire here). -/
def transformMapValue (data : List (String × String))
    (transforms : Option (List (String × (String → String)))) : List (String × String) :=
  match transforms with
  | none => data
  | some ts =>
    ts.foldl (fun acc kt =>
      match acc.lookup kt.1 with
      | some v => jsObjSet acc kt.1 (kt.2 v)
      | none => acc) data

/-- Lower-cases every header name, then applies the owning definition
header transforms; the second source argument `it : Operation | Response`
is passed as its `_headerTransform` field. -/
def transformLiveHeader (headers : List (String × String))
    (headerTransform : Option (List (String × (String → String)))) : List (String × String) :=
  transformMapValue
    (headers.foldl (fun acc kv => jsObjSet acc (jsToLower kv.1) kv.2) [])
    headerTransform

/-- The content-type gate: the observed type is the `content-type` header
split at the first `;`; an absent (or falsy) value is skipped for requests
and defaults to `application/octet-stream` for responses; a violation is
one issue listing the observed and the supported types. -/
def validateContentType (allowedContentTypes : List String)
    (headers : List (String × String)) (isReq : Bool) : List LiveValidationIssue :=
  let firstSeg : Option String := (headers.lookup "content-type").map
    (fun v => (jsSplitOn v ';').headD "")
  let contentType : Option String :=
    match firstSeg with
    | some s =>
      if s = "" then (if isReq then none else some "application/octet-stream") else some s
    | none => if isReq then none else some "application/octet-stream"
  match contentType with
  | none => []
  | some ct =>
    if allowedContentTypes.contains ct then []
    else [issueFromErrorCode "INVALID_CONTENT_TYPE"
      [("contentType", ct), ("supported", jsJoin ", " allowedContentTypes)] none]

/-- Mutable per-issue state threaded through the path loop of the issue
classifier (the source mutates the issue record in place while mapping
over its JSON paths, so later paths observe the code set by earlier ones). -/
structure ClassifyAcc where
  code : String
  severity : String
  message : String
  skip : Bool
  jsonPathsRev : List String
  pointersRev : List String

/-- One iteration of the path loop inside
`schemaValidateIssueToLiveValidationIssue`. -/
def classifyPathStep (operation : Operation) (ctx : SchemaValidateContext)
    (missingProp : String) (acc : ClassifyAcc) (path : String) : ClassifyAcc :=
  let isMissingRequiredProperty := acc.code == "OBJECT_MISSING_REQUIRED_PROPERTY"
  let isBodyIssue := jsStartsWith path ".body"
  if isBodyIssue && (decide (jsLength path > 5) || !isMissingRequiredProperty) then
    let p := "$" ++ jsDropChars path 5
    { acc with
      jsonPathsRev := p :: acc.jsonPathsRev
      pointersRev := jsonPathToPointer p :: acc.pointersRev }
  else
    let next :=
      if isMissingRequiredProperty then
        let cs : String × Bool :=
          if ctx.isResponse then
            if isBodyIssue then
              ("INVALID_RESPONSE_BODY",
                acc.skip || (operation.lro &&
                  (ctx.statusCode == some "201" || ctx.statusCode == some "202")))
            else if jsStartsWith path ".headers" then
              ("INVALID_RESPONSE_HEADER", acc.skip)
            else (acc.code, acc.skip)
          else ("MISSING_REQUIRED_PARAMETER", acc.skip)
        { acc with
          code := cs.1
          skip := cs.2
          severity := (errorCodeToErrorMetadata cs.1).severity
          message := getValidateErrorMessage cs.1 [("missingProperty", missingProp)] }
      else acc
    { next with
      jsonPathsRev := path :: next.jsonPathsRev
      pointersRev := jsonPathToPointer path :: next.pointersRev }

/-- Classifies one raw issue: attach metadata for its original code,
default the source url to the owning specification file, then run the path
loop; returns the enriched issue and whether it is to be suppressed. -/
def classifyIssue (operation : Operation) (ctx : SchemaValidateContext)
    (i : LiveValidationIssue) : LiveValidationIssue × Bool :=
  let meta := errorCodeToErrorMetadata i.code
  let srcUrl := if i.sourceUrl = "" then operation.specFilePath else i.sourceUrl
  let start : ClassifyAcc :=
    { code := i.code, severity := meta.severity, message := i.message
      skip := false, jsonPathsRev := [], pointersRev := [] }
  let acc := i.jsonPathsInPayload.foldl
    (classifyPathStep operation ctx (i.params.headD "undefined")) start
  ({ i with
      code := acc.code
      severity := acc.severity
      message := acc.message
      docUrl := meta.docUrl
      sourceUrl := srcUrl
      jsonPathsInPayload := acc.jsonPathsRev.reverse
      pathsInPayload := acc.pointersRev.reverse }, acc.skip)

/-- The issue classifier: enriches each raw schema issue in input order and
drops the suppressed ones. -/
def schemaValidateIssueToLiveValidationIssue (input : List LiveValidationIssue)
    (operation : Operation) (ctx : SchemaValidateContext) : List LiveValidationIssue :=
  match input with
  | [] => []
  | i :: rest =>
    let r := classifyIssue operation ctx i
    if r.2 then schemaValidateIssueToLiveValidationIssue rest operation ctx
    else r.1 :: schemaValidateIssueToLiveValidationIssue rest operation ctx

/-- The LRO header check: succeeds when `location`, `azure-AsyncOperation`
or `azure-asyncoperation` is present and non-empty, otherwise emits one
issue naming the accepted headers. -/
def validateLroHeader (operation : Operation)
    (headers : List (String × String)) : List LiveValidationIssue :=
  let undefOrEmpty : Option String → Bool := fun o => o.isNone || o == some ""
  if undefOrEmpty (headers.lookup "location") &&
      undefOrEmpty (headers.lookup "azure-AsyncOperation") &&
      undefOrEmpty (headers.lookup "azure-asyncoperation") then
    [issueFromErrorCode "LRO_RESPONSE_HEADER"
      [("header", "location or azure-AsyncOperation")] (some operation.responsesInfo)]
  else []

/-- The LRO status-code and header rule, a pure function of the HTTP
method and the status code. -/
def validateLroOperation (operation : Operation) (statusCode : String)
    (headers : List (String × String)) : List LiveValidationIssue :=
  let codeIssue := issueFromErrorCode "LRO_RESPONSE_CODE"
    [("statusCode", statusCode)] (some operation.responsesInfo)
  if operation.lro = true then
    if operation._method = "patch" ∨ operation._method = "post" then
      if statusCode ≠ "202" ∧ statusCode ≠ "201" then [codeIssue]
      else validateLroHeader operation headers
    else if operation._method = "delete" then
      (if statusCode ≠ "202" ∧ statusCode ≠ "204" then [codeIssue] else []) ++
      (if statusCode = "202" then validateLroHeader operation headers else [])
    else if operation._method = "put" then
      if statusCode = "202" ∨ statusCode = "201" then validateLroHeader operation headers
      else if statusCode ≠ "200" then [codeIssue]
      else []
    else []
  else []

/-- Decides `400 <= parseInt(statusCode) <= 599` with `NaN` comparing false. -/
def statusInDefaultRange (statusCode : String) : Bool :=
  match parseIntJS statusCode with
  | some n => decide (400 ≤ n ∧ n ≤ 599)
  | none => false

/-- Decides `200 <= parseInt(statusCode) < 300` with `NaN` comparing false. -/
def statusIn2xxRange (statusCode : String) : Bool :=
  match parseIntJS statusCode with
  | some n => decide (200 ≤ n ∧ n < 300)
  | none => false

/-- Validates one observed response against its matched operation.  The
external loader (which compiles a validator on demand) is a function
argument; its absence when no compiled validator exists is the
fail-fast contract violation, modelled as `Except.error`. -/
def validateSwaggerLiveResponse (response : LiveResponse) (operation : Operation)
    (loader : Option (Response → SchemaValidateContext → ResponsePayload → List LiveValidationIssue))
    (includeErrors : Option (List String)) (isArmCall : Option Bool) :
    Except String (List LiveValidationIssue) :=
  let rspDef := operation.responses
  let statusCode := response.statusCode
  let rsp0 := rspDef.lookup statusCode
  let rsp := if rsp0.isNone && statusInDefaultRange statusCode then rspDef.lookup "default" else rsp0
  match rsp with
  | none => .ok [issueFromErrorCode "INVALID_RESPONSE_CODE"
      [("statusCode", statusCode)] (some operation.responsesInfo)]
  | some r =>
    let validateOpt : Option (SchemaValidateContext → ResponsePayload → List LiveValidationIssue) :=
      match r._validate with
      | some v => some v
      | none => loader.map (fun ld => ld r)
    match validateOpt with
    | none => .error "Loader is undefined but request validator isn't built yet"
    | some validate =>
      let headers := transformLiveHeader response.headers r._headerTransform
      let pre :=
        if r.schema then
          validateContentType operation.produces headers false ++
          (if (isArmCall.getD false) && statusIn2xxRange statusCode then
            validateLroOperation operation statusCode headers
          else [])
        else []
      let ctx : SchemaValidateContext :=
        { isResponse := true, includeErrors := includeErrors
          statusCode := some statusCode, httpMethod := some operation._method }
      let errors := validate ctx { headers := headers, body := response.body }
      .ok (pre ++ schemaValidateIssueToLiveValidationIssue errors operation ctx)

/-! ## Data model of the traffic coverage aggregator (trafficValidator.ts) -/

/-- Modelled from the spec: `ErrorCodeConstants.RUNTIME_ERROR` from
`util/errorDefinitions`, the stable code of a run-level runtime failure. -/
def RUNTIME_ERROR : String := "RUNTIME_ERROR"

/-- A non-validation failure attached to one sample. -/
structure RuntimeException where
  code : String
  message : String
  spec : Option (List String)
deriving DecidableEq

/-- The operation context attached to a validation result: identifier, api
version, the provider namespace of the validation request when one exists,
and the file position the aggregator assigns.  File positions come from
excluded utilities and are modelled as opaque numbers. -/
structure OperationContext where
  operationId : String
  apiVersion : String
  providerNamespace : Option String
  position : Option Nat
deriving DecidableEq

/-- Outcome of one direction (request or response) of the external live
validator: `isSuccessful` is `none` for a runtime exception, `some false`
for validation failures with their issues, `some true` for success. -/
structure ValidationOutcome where
  isSuccessful : Option Bool
  errors : List LiveValidationIssue
  runtimeException : Option RuntimeException
deriving DecidableEq

/-- The pair-level result the external `validateLiveRequestResponse`
returns for one sample. -/
structure RequestResponseValidationResult where
  requestResult : ValidationOutcome
  responseResult : ValidationOutcome
  requestOpInfo : OperationContext
  runtimeException : Option RuntimeException
deriving DecidableEq

/-- One traffic sample file together with the values every external
collaborator returns for it while the aggregator processes it.  `raises`
models an exception thrown at the start of processing the sample (a
malformed traffic file in `require`, a loader failure); `opInfo` is what
`getOperationInfo` returns, `url` the live request url.  The two position
fields model `getFilePositionFromJsonPath` on the payload for the branch
taken, `opIdPosition` the per-specification position of the operation id. -/
structure TrafficSample where
  file : String
  raises : Option String
  result : RequestResponseValidationResult
  opInfo : OperationContext
  url : String
  posWhenReqSuccess : Option Nat
  posWhenReqFail : Option Nat
  opIdPosition : String → Option Nat

/-- One aggregation record tying a sample to a specification file. -/
structure TrafficValidationIssue where
  specFilePath : Option String
  payloadFilePath : Option String
  payloadFilePathPosition : Option Nat
  errors : Option (List LiveValidationIssue)
  runtimeExceptions : Option (List RuntimeException)
  operationInfo : Option OperationContext
deriving DecidableEq

/-- Mutable state of `TrafficValidator.validate`: the per-specification
exercised and failing operation sets and the accumulated result records. -/
structure ValidatorState where
  trafficOperation : List (String × List String)
  validationFailOperations : List (String × List String)
  trafficValidationResult : List TrafficValidationIssue
  operationUndefinedResult : Nat

/-- Covered or uncovered operation identifier entry of the report. -/
structure OperationMeta where
  operationId : String
deriving DecidableEq

/-- Uncovered entry with its grouping key (identifier up to the first
underscore). -/
structure unCoveredOperationsFormatInner where
  key : String
  operationId : String
deriving DecidableEq

/-- One reporting batch of uncovered operations sharing a group key. -/
structure unCoveredOperationsFormat where
  operationIdList : List unCoveredOperationsFormatInner
deriving DecidableEq

/-- Per-specification coverage rollup.  Counts are the JavaScript numbers
of the source: list lengths as naturals, the subtraction as an integer and
the rate as the exact quotient (the source divides IEEE doubles; the
quotient itself is the value being modelled). -/
structure OperationCoverageInfo where
  spec : String
  apiVersion : String
  coveredOperations : Nat
  coveredOperationsList : List OperationMeta
  validationFailOperations : Nat
  unCoveredOperations : Int
  unCoveredOperationsList : List unCoveredOperationsFormatInner
  unCoveredOperationsListGen : List unCoveredOperationsFormat
  totalOperations : Nat
  coverageRate : ℚ
deriving DecidableEq

/-! ## Sorting: the source sorts the covered and uncovered lists with
`Array.prototype.sort` under an explicit three-way comparator and the
uncovered batches with a hand-written bubble sort of adjacent swaps (swap
when the comparator is positive, `length - 1` outer passes).  Both are
modelled by the same pass iteration: a full pass over a list whose already
placed tail is a sorted upper-bound suffix leaves that tail unchanged, so
the shrinking inner loop of the source bubble sort computes the same list
as the full pass, and any comparator sort models the engine sort. -/

/-- One bubble pass carrying the element currently being bubbled. -/
def bubblePass (cmp : α → α → Int) : α → List α → List α
  | a, [] => [a]
  | a, b :: t => if cmp a b > 0 then b :: bubblePass cmp a t else a :: bubblePass cmp b t

/-- One bubble pass over a whole list. -/
def bubblePassL (cmp : α → α → Int) : List α → List α
  | [] => []
  | a :: t => bubblePass cmp a t

/-- Iterated bubble passes. -/
def passIter (cmp : α → α → Int) : Nat → List α → List α
  | 0, l => l
  | n + 1, l => passIter cmp n (bubblePassL cmp l)

/-- Comparator sort: `length - 1` bubble passes. -/
def jsSortArray (cmp : α → α → Int) (l : List α) : List α := passIter cmp (l.length - 1) l

/-- Strict lexicographic string order, `a < b` in JavaScript. -/
def jsStrLtB (a b : String) : Bool := charListLeB a.data b.data && !charListLeB b.data a.data

/-- The three-way comparator of the source sort callbacks: `-1` when the
first identifier is smaller, `1` when greater, `0` otherwise. -/
def cmpIdStr (x y : String) : Int :=
  if jsStrLtB x y then -1 else if jsStrLtB y x then 1 else 0

/-- Comparator of the covered-operations sort. -/
def cmpMeta (a b : OperationMeta) : Int := cmpIdStr a.operationId b.operationId

/-- Comparator of the uncovered-operations sort. -/
def cmpInner (a b : unCoveredOperationsFormatInner) : Int :=
  cmpIdStr a.operationId b.operationId

/-- Modelled from the external JavaScript builtin
`String.prototype.localeCompare` under the default locale, restricted to
ASCII: letters compare case-insensitively first and a case difference only
breaks ties between otherwise equal strings.  The modelled aspect is that
collation orders by letter before case, unlike code-unit order; the exact
tertiary tie-break of the ICU collation does not matter to any claim. -/
def jsLocaleCompare (a b : String) : Int :=
  let la := jsToLower a
  let lb := jsToLower b
  if la = lb then (if a = b then 0 else if jsStrLeB a b then -1 else 1)
  else (if jsStrLeB la lb then -1 else 1)

/-- Group key of a batch: `operationIdList[0].key` in the source. -/
def batchKey (b : unCoveredOperationsFormat) : String :=
  (b.operationIdList.headD ⟨"", ""⟩).key

/-- Comparator of the batch bubble sort. -/
def cmpBatch (a b : unCoveredOperationsFormat) : Int :=
  jsLocaleCompare (batchKey a) (batchKey b)

/-! ## The aggregator functions (translated from trafficValidator.ts) -/

/-- Control-plane specification lookup: provider namespace in the
lower-cased path, api version in the path, operation id declared. -/
def findSwaggerByOperationInfo (operationSpecMapper : List (String × List String))
    (operationInfo : OperationContext) : List String :=
  match operationInfo.providerNamespace with
  | none => []
  | some ns =>
    operationSpecMapper.foldl (fun result kv =>
      if jsIncludes (jsToLower kv.1) ns &&
          (jsIncludes kv.1 operationInfo.apiVersion ||
            jsIncludes (jsToLower kv.1) operationInfo.apiVersion) then
        if kv.2.contains operationInfo.operationId then result ++ [kv.1] else result
      else result) []

/-- Data-plane specification lookup: operation id declared and api version
in the path. -/
def findSwaggerByOperationId (operationSpecMapper : List (String × List String))
    (operationInfo : OperationContext) : List String :=
  operationSpecMapper.foldl (fun result kv =>
    if kv.2.contains operationInfo.operationId &&
        (jsIncludes kv.1 operationInfo.apiVersion ||
          jsIncludes (jsToLower kv.1) operationInfo.apiVersion) then
      result ++ [kv.1]
    else result) []

/-- The per-sample failure gate of the aggregator: either direction failed
or raised, or the pair carries a runtime exception. -/
def failCondition (r : RequestResponseValidationResult) : Bool :=
  r.requestResult.isSuccessful == some false ||
  r.requestResult.isSuccessful == none ||
  r.responseResult.isSuccessful == some false ||
  r.responseResult.isSuccessful == none ||
  r.runtimeException.isSome

/-- The issues of a failing sample, tagged with their direction. -/
def sampleErrors (r : RequestResponseValidationResult) : List LiveValidationIssue :=
  (match r.requestResult.isSuccessful with
    | some false => r.requestResult.errors.map (fun e => { e with issueSource := some "request" })
    | _ => []) ++
  (match r.responseResult.isSuccessful with
    | some false => r.responseResult.errors.map (fun e => { e with issueSource := some "response" })
    | _ => [])

/-- The runtime exceptions of a sample: one per direction that ended in a
runtime exception instead of a verdict. -/
def sampleRuntimeExceptions (r : RequestResponseValidationResult) : List RuntimeException :=
  (if r.requestResult.isSuccessful = none then r.requestResult.runtimeException.toList else []) ++
  (if r.responseResult.isSuccessful = none then r.responseResult.runtimeException.toList else [])

/-- The ensure-entry-then-push-if-absent update the source performs on its
per-specification operation maps. -/
def recordOperation (m : List (String × List String)) (f opId : String) :
    List (String × List String) :=
  let m0 := if (m.lookup f).isSome then m else jsObjSet m f []
  let cur := (m0.lookup f).getD []
  if cur.contains opId then m0 else jsObjSet m0 f (cur ++ [opId])

/-- The result record the aggregator appends for one failing sample
against one specification file. -/
def failRecord (s : TrafficSample) (f : String) : TrafficValidationIssue :=
  { specFilePath := some f
    payloadFilePath := some s.file
    payloadFilePathPosition :=
      if s.result.requestResult.isSuccessful == some true then s.posWhenReqSuccess
      else s.posWhenReqFail
    errors := some (sampleErrors s.result)
    runtimeExceptions := some (sampleRuntimeExceptions s.result)
    operationInfo := some { s.result.requestOpInfo with position := s.opIdPosition f } }

/-- One iteration of the loop over the specification files a sample
matched: record coverage, and when the sample failed also record the
failing operation and append a result record. -/
def sampleFileStep (s : TrafficSample) (st : ValidatorState) (f : String) : ValidatorState :=
  let st1 := { st with
    trafficOperation := recordOperation st.trafficOperation f s.opInfo.operationId }
  if failCondition s.result then
    { st1 with
      validationFailOperations :=
        recordOperation st1.validationFailOperations f s.opInfo.operationId
      trafficValidationResult := st1.trafficValidationResult ++ [failRecord s f] }
  else st1

/-- The specification files a sample matches: the control-plane lookup
when the request url mentions a provider, the data-plane lookup otherwise. -/
def sampleSwaggerFiles (operationSpecMapper : List (String × List String))
    (s : TrafficSample) : List String :=
  if jsIncludes s.url "provider" then findSwaggerByOperationInfo operationSpecMapper s.opInfo
  else findSwaggerByOperationId operationSpecMapper s.opInfo

/-- Processes one sample: locate the owning specification files, record
coverage for each, and append one result record per file when the sample
failed; a sample matching no specification only bumps the undefined
counter. -/
def processSample (operationSpecMapper : List (String × List String))
    (st : ValidatorState) (s : TrafficSample) : ValidatorState :=
  let swaggerFiles := sampleSwaggerFiles operationSpecMapper s
  if swaggerFiles.isEmpty then
    { st with operationUndefinedResult := st.operationUndefinedResult + 1 }
  else
    swaggerFiles.foldl (sampleFileStep s) st

/-- The record the run-level catch block appends: the exception message
with the always-undefined `Stack` property interpolation of the source. -/
def catchRecord (file : String) (msg : String) : TrafficValidationIssue :=
  { specFilePath := none
    payloadFilePath := some file
    payloadFilePathPosition := none
    errors := none
    runtimeExceptions := some
      [{ code := RUNTIME_ERROR
         message := "Detail error message:" ++ msg ++ ". ErrorStack:undefined"
         spec := none }]
    operationInfo := none }

/-- The sample loop of `TrafficValidator.validate`: the try block wraps
the whole loop, so the first sample that raises appends one catch record
and ends the loop; samples after it are not processed. -/
def trafficValidateLoop (operationSpecMapper : List (String × List String)) :
    ValidatorState → List TrafficSample → ValidatorState
  | st, [] => st
  | st, s :: rest =>
    match s.raises with
    | some msg =>
      { st with trafficValidationResult := st.trafficValidationResult ++ [catchRecord s.file msg] }
    | none => trafficValidateLoop operationSpecMapper (processSample operationSpecMapper st s) rest

/-- Models `unValidatedOperations.splice(indexOf(x), 1)`: removes the
first occurrence of `x`; when `x` is absent, `indexOf` is `-1` and
`splice(-1, 1)` removes the last element instead. -/
def jsSpliceRemove (l : List String) (x : String) : List String :=
  if l.contains x then l.erase x else l.dropLast

/-- Groups the uncovered entries by key with the reduce of the source,
keys in first-occurrence order, items in list order.  The engine would
place integer-like keys first; that only permutes the pre-sort batch
order, which the final comparator sort makes unobservable, so insertion
order models `Object.values` here. -/
def groupValuesInOrder (items : List unCoveredOperationsFormatInner) :
    List (List unCoveredOperationsFormatInner) :=
  (items.foldl (fun acc it =>
    match acc.lookup it.key with
    | some l0 => jsObjSet acc it.key (l0 ++ [it])
    | none => acc ++ [(it.key, [it])]) []).map (fun kv => kv.2)

/-- The rollup for one specification file: `none` models `isMatch = false`
(specification never matched by a sample, or with an empty operation
list), in which case nothing is pushed to the report. -/
def computeCoverageEntry (apiVer : String → String) (st : ValidatorState)
    (key : String) (value : List String) : Option OperationCoverageInfo :=
  match st.trafficOperation.lookup key with
  | none => none
  | some validatedOperations =>
    if value.length ≠ 0 then
      let coveredOperations := validatedOperations.length
      let coverageRate : ℚ := (coveredOperations : ℚ) / (value.length : ℚ)
      let coveredOperationsList := validatedOperations.map OperationMeta.mk
      let unValidatedOperations := validatedOperations.foldl jsSpliceRemove value
      let unCoveredOperationsList := unValidatedOperations.map
        (fun e => unCoveredOperationsFormatInner.mk ((jsSplitOn e '_').headD "") e)
      let unCoveredOperationsListFormat :=
        (groupValuesInOrder unCoveredOperationsList).map unCoveredOperationsFormat.mk
      let failCount := ((st.validationFailOperations.lookup key).getD []).length
      some { spec := key
             apiVersion := apiVer key
             coveredOperations := coveredOperations
             coverageRate := coverageRate
             unCoveredOperations := (value.length : Int) - (coveredOperations : Int)
             totalOperations := value.length
             validationFailOperations := failCount
             coveredOperationsList := jsSortArray cmpMeta coveredOperationsList
             unCoveredOperationsList := jsSortArray cmpInner unCoveredOperationsList
             unCoveredOperationsListGen := jsSortArray cmpBatch unCoveredOperationsListFormat }
    else none

/-- The rollup over every specification file, in mapper insertion order. -/
def computeCoverage (apiVer : String → String)
    (operationSpecMapper : List (String × List String)) (st : ValidatorState) :
    List OperationCoverageInfo :=
  operationSpecMapper.foldl
    (fun acc kv => acc ++ (computeCoverageEntry apiVer st kv.1 kv.2).toList) []

/-- What `TrafficValidator.validate` leaves behind: the returned record
list and the coverage report and undefined counter fields. -/
structure TrafficValidatorOutput where
  trafficValidationResult : List TrafficValidationIssue
  operationCoverageResult : List OperationCoverageInfo
  operationUndefinedResult : Nat

namespace TrafficValidator

/-- The whole `validate` method over a prepared specification mapper and
the per-sample external results: run the guarded sample loop, then the
coverage rollup.  `apiVer` stands for the excluded
`getApiVersionFromFilePath` utility. -/
def validate (apiVer : String → String)
    (operationSpecMapper : List (String × List String))
    (samples : List TrafficSample) : TrafficValidatorOutput :=
  let st := trafficValidateLoop operationSpecMapper
    { trafficOperation := [], validationFailOperations := []
      trafficValidationResult := [], operationUndefinedResult := 0 } samples
  { trafficValidationResult := st.trafficValidationResult
    operationCoverageResult := computeCoverage apiVer operationSpecMapper st
    operationUndefinedResult := st.operationUndefinedResult }

end TrafficValidator

/-! ## Concrete data for scenario conjuncts, counterexamples and witnesses -/

/-- A plain operation with no long-running flag. -/
def sampleOperation : Operation :=
  { lro := false, _method := "put", responses := [], responsesInfo := "responses-info"
    consumes := ["application/json"], produces := ["application/json"]
    specFilePath := "specs/sample.json", _headerTransform := none }

/-- A long-running delete operation. -/
def sampleDeleteLro : Operation := { sampleOperation with lro := true, _method := "delete" }

/-- The request-mode context the request orchestrator builds. -/
def requestContext : SchemaValidateContext :=
  { isResponse := false, includeErrors := none, statusCode := none, httpMethod := none }

/-- A response-mode context for a 201 response of a put operation. -/
def response201Context : SchemaValidateContext :=
  { isResponse := true, includeErrors := none, statusCode := some "201", httpMethod := some "put" }

/-- A raw missing-required-property schema issue located at the given path. -/
def missingPropIssue (p : String) : LiveValidationIssue :=
  { code := "OBJECT_MISSING_REQUIRED_PROPERTY", severity := "", message := "raw"
    jsonPathsInPayload := [p], pathsInPayload := [], schemaPath := ""
    sourceUrl := "", docUrl := "", params := ["location"], issueSource := none }

/-- A raw issue with a recognizable code, returned by canary validators. -/
def canaryRawIssue : LiveValidationIssue :=
  { code := "CANARY", severity := "", message := "raw", jsonPathsInPayload := []
    pathsInPayload := [], schemaPath := "", sourceUrl := "spec://canary", docUrl := ""
    params := [], issueSource := none }

/-- A response definition whose compiled validator reports the canary. -/
def canaryResponse : Response :=
  { schema := false, _validate := some (fun _ _ => [canaryRawIssue]), _headerTransform := none }

/-- An operation declaring only a 200 response and a default response. -/
def twoHundredAndDefaultOp : Operation :=
  { lro := false, _method := "get", responses := [("200", canaryResponse), ("default", canaryResponse)]
    responsesInfo := "responses-info", consumes := [], produces := []
    specFilePath := "specs/sample.json", _headerTransform := none }

/-- A bare observed response with the given status code. -/
def bareLiveResponse (sc : String) : LiveResponse := { statusCode := sc, headers := [], body := none }

/-- A specification mapper with one file declaring three operations. -/
def sampleSpecMapper : List (String × List String) := [("specs/a2021.json", ["c_z", "a_x", "B_y"])]

/-- A succeeding direction outcome. -/
def okOutcome : ValidationOutcome :=
  { isSuccessful := some true, errors := [], runtimeException := none }

/-- A failing direction outcome with no reported issue detail. -/
def failOutcome : ValidationOutcome :=
  { isSuccessful := some false, errors := [], runtimeException := none }

/-- The operation context of the sample traffic. -/
def sampleOpContext : OperationContext :=
  { operationId := "c_z", apiVersion := "2021", providerNamespace := none, position := none }

/-- A fully successful pair result. -/
def passResult : RequestResponseValidationResult :=
  { requestResult := okOutcome, responseResult := okOutcome
    requestOpInfo := sampleOpContext, runtimeException := none }

/-- A pair result whose response validation failed. -/
def failPairResult : RequestResponseValidationResult :=
  { requestResult := okOutcome, responseResult := failOutcome
    requestOpInfo := sampleOpContext, runtimeException := none }

/-- A sample that validates cleanly against the sample mapper. -/
def passingSample : TrafficSample :=
  { file := "traffic/1.json", raises := none, result := passResult, opInfo := sampleOpContext
    url := "https://host/c", posWhenReqSuccess := none, posWhenReqFail := none
    opIdPosition := fun _ => none }

/-- A sample whose response validation fails. -/
def failingSample : TrafficSample :=
  { passingSample with file := "traffic/2.json", result := failPairResult }

/-- A corrupt sample file: processing it raises. -/
def raisingSample : TrafficSample :=
  { passingSample with file := "traffic/bad.json", raises := some "Unexpected token" }

/-- The coverage record the sample corpus of one passing sample produces:
one of three declared operations covered.  Defined as the head of the
computed report so that witnesses can refer to the produced record. -/
def sampleCoverageRecord : OperationCoverageInfo :=
  ((TrafficValidator.validate (fun p => p) sampleSpecMapper
    [passingSample]).operationCoverageResult).headD ⟨"", "", 0, [], 0, 0, [], [], 0, 0⟩

/-! ## Order facts for the modelled string comparisons -/

theorem charToNat_inj {a b : Char} (h : a.toNat = b.toNat) : a = b := by
  apply Char.ext
  unfold Char.toNat at h
  exact UInt32.eq_of_val_eq (Fin.ext h)

theorem charListLeB_refl (a : List Char) : charListLeB a a = true := by
  induction a with
  | nil => rfl
  | cons x xs ih => simp [charListLeB, ih]

theorem charListLeB_total (a b : List Char) :
    charListLeB a b = true ∨ charListLeB b a = true := by
  induction a generalizing b with
  | nil => left; rfl
  | cons x xs ih =>
    cases b with
    | nil => right; rfl
    | cons y ys =>
      simp only [charListLeB]
      rcases Nat.lt_trichotomy x.toNat y.toNat with h | h | h
      · left; simp [h]
      · have h2 : ¬ x.toNat < y.toNat := by omega
        have h3 : ¬ y.toNat < x.toNat := by omega
        rcases ih ys with h4 | h4
        · left; simp [h2, h3, h4]
        · right; simp [h2, h3, h4]
      · right; simp [h, Nat.lt_asymm h]

theorem charListLeB_trans {a b c : List Char} (h1 : charListLeB a b = true)
    (h2 : charListLeB b c = true) : charListLeB a c = true := by
  induction a generalizing b c with
  | nil => rfl
  | cons x xs ih =>
    cases b with
    | nil => simp [charListLeB] at h1
    | cons y ys =>
      cases c with
      | nil => simp [charListLeB] at h2
      | cons z zs =>
        simp only [charListLeB] at h1 h2 ⊢
        by_cases hxy : x.toNat < y.toNat
        · by_cases hyz : y.toNat < z.toNat
          · have : x.toNat < z.toNat := Nat.lt_trans hxy hyz
            simp [this]
          · rw [if_neg hyz] at h2
            by_cases hzy : z.toNat < y.toNat
            · rw [if_pos hzy] at h2; exact absurd h2 (by simp)
            · have : x.toNat < z.toNat := by omega
              simp [this]
        · rw [if_neg hxy] at h1
          by_cases hyx : y.toNat < x.toNat
          · rw [if_pos hyx] at h1; exact absurd h1 (by simp)
          · rw [if_neg hyx] at h1
            by_cases hyz : y.toNat < z.toNat
            · have : x.toNat < z.toNat := by omega
              simp [this]
            · rw [if_neg hyz] at h2
              by_cases hzy : z.toNat < y.toNat
              · rw [if_pos hzy] at h2; exact absurd h2 (by simp)
              · rw [if_neg hzy] at h2
                have h4 : ¬ x.toNat < z.toNat := by omega
                have h5 : ¬ z.toNat < x.toNat := by omega
                rw [if_neg h4, if_neg h5]
                exact ih h1 h2

theorem charListLeB_antisymm {a b : List Char} (h1 : charListLeB a b = true)
    (h2 : charListLeB b a = true) : a = b := by
  induction a generalizing b with
  | nil =>
    cases b with
    | nil => rfl
    | cons y ys => simp [charListLeB] at h2
  | cons x xs ih =>
    cases b with
    | nil => simp [charListLeB] at h1
    | cons y ys =>
      simp only [charListLeB] at h1 h2
      by_cases hxy : x.toNat < y.toNat
      · rw [if_neg (Nat.lt_asymm hxy), if_pos hxy] at h2
        exact absurd h2 (by simp)
      · rw [if_neg hxy] at h1
        by_cases hyx : y.toNat < x.toNat
        · rw [if_pos hyx] at h1; exact absurd h1 (by simp)
        · rw [if_neg hyx] at h1
          rw [if_neg hyx, if_neg hxy] at h2
          have hx : x = y := charToNat_inj (by omega)
          rw [hx, ih h1 h2]

theorem strEq_of_data {a b : String} (h : a.data = b.data) : a = b := by
  cases a
  cases b
  exact congrArg String.mk h

theorem jsStrLeB_refl (a : String) : jsStrLeB a a = true := charListLeB_refl _

theorem jsStrLeB_total (a b : String) : jsStrLeB a b = true ∨ jsStrLeB b a = true :=
  charListLeB_total _ _

theorem jsStrLeB_trans {a b c : String} (h1 : jsStrLeB a b = true)
    (h2 : jsStrLeB b c = true) : jsStrLeB a c = true := charListLeB_trans h1 h2

theorem jsStrLeB_antisymm {a b : String} (h1 : jsStrLeB a b = true)
    (h2 : jsStrLeB b a = true) : a = b := strEq_of_data (charListLeB_antisymm h1 h2)

/-! ## Correctness of the comparator sort -/

theorem bubblePass_perm (cmp : α → α → Int) :
    ∀ (t : List α) (a : α), (bubblePass cmp a t).Perm (a :: t) := by
  intro t
  induction t with
  | nil => intro a; exact List.Perm.refl _
  | cons b t ih =>
    intro a
    by_cases h : cmp a b > 0
    · simp only [bubblePass, if_pos h]
      exact ((ih a).cons b).trans (List.Perm.swap a b t)
    · simp only [bubblePass, if_neg h]
      exact (ih b).cons a

theorem bubblePass_last (cmp : α → α → Int)
    (hrefl : ∀ a : α, ¬ cmp a a > 0)
    (htot : ∀ a b : α, cmp a b > 0 → ¬ cmp b a > 0)
    (htrans : ∀ a b c : α, ¬ cmp a b > 0 → ¬ cmp b c > 0 → ¬ cmp a c > 0) :
    ∀ (t : List α) (a : α), ∃ s m, bubblePass cmp a t = s ++ [m] ∧
      ∀ x ∈ a :: t, ¬ cmp x m > 0 := by
  intro t
  induction t with
  | nil =>
    intro a
    refine ⟨[], a, rfl, ?_⟩
    intro x hx
    simp only [List.mem_cons, List.not_mem_nil, or_false] at hx
    subst hx
    exact hrefl _
  | cons b t ih =>
    intro a
    by_cases h : cmp a b > 0
    · obtain ⟨s, m, hsplit, hub⟩ := ih a
      refine ⟨b :: s, m, by simp [bubblePass, if_pos h, hsplit], ?_⟩
      intro x hx
      simp only [List.mem_cons] at hx
      rcases hx with rfl | rfl | hx
      · exact hub x (by simp)
      · exact htrans x a m (htot a x h) (hub a (by simp))
      · exact hub x (by simp [hx])
    · obtain ⟨s, m, hsplit, hub⟩ := ih b
      refine ⟨a :: s, m, by simp [bubblePass, if_neg h, hsplit], ?_⟩
      intro x hx
      simp only [List.mem_cons] at hx
      rcases hx with rfl | rfl | hx
      · exact htrans x b m h (hub b (by simp))
      · exact hub x (by simp)
      · exact hub x (by simp [hx])

theorem bubblePass_of_pairwise (cmp : α → α → Int) :
    ∀ (t : List α) (a : α), List.Pairwise (fun x y => ¬ cmp x y > 0) (a :: t) →
      bubblePass cmp a t = a :: t := by
  intro t
  induction t with
  | nil => intro a _; rfl
  | cons b t ih =>
    intro a hp
    have hab : ¬ cmp a b > 0 := (List.pairwise_cons.mp hp).1 b (by simp)
    simp only [bubblePass, if_neg hab]
    rw [ih b (List.pairwise_cons.mp hp).2]

theorem bubblePass_append (cmp : α → α → Int) :
    ∀ (xs : List α) (a : α) (ys : List α),
      (∀ x ∈ a :: xs, ∀ y ∈ ys, ¬ cmp x y > 0) →
      List.Pairwise (fun x y => ¬ cmp x y > 0) ys →
      bubblePass cmp a (xs ++ ys) = bubblePass cmp a xs ++ ys := by
  intro xs
  induction xs with
  | nil =>
    intro a ys hcross hys
    cases ys with
    | nil => rfl
    | cons y ys2 =>
      have hay : ¬ cmp a y > 0 := hcross a (by simp) y (by simp)
      show bubblePass cmp a (y :: ys2) = [a] ++ (y :: ys2)
      simp only [bubblePass, if_neg hay]
      rw [bubblePass_of_pairwise cmp ys2 y hys]
      rfl
  | cons b xs2 ih =>
    intro a ys hcross hys
    have hsubA : ∀ z ∈ a :: xs2, ∀ y ∈ ys, ¬ cmp z y > 0 := by
      intro z hz
      apply hcross z
      simp only [List.mem_cons] at hz ⊢
      tauto
    have hsubB : ∀ z ∈ b :: xs2, ∀ y ∈ ys, ¬ cmp z y > 0 := by
      intro z hz
      apply hcross z
      simp only [List.mem_cons] at hz ⊢
      tauto
    have l1 : bubblePass cmp a ((b :: xs2) ++ ys) =
        if cmp a b > 0 then b :: bubblePass cmp a (xs2 ++ ys)
        else a :: bubblePass cmp b (xs2 ++ ys) := rfl
    have l2 : bubblePass cmp a (b :: xs2) =
        if cmp a b > 0 then b :: bubblePass cmp a xs2
        else a :: bubblePass cmp b xs2 := rfl
    rw [l1, l2]
    by_cases h : cmp a b > 0
    · rw [if_pos h, if_pos h, ih a ys hsubA hys]
      rfl
    · rw [if_neg h, if_neg h, ih b ys hsubB hys]
      rfl

theorem bubblePassL_perm (cmp : α → α → Int) (l : List α) :
    (bubblePassL cmp l).Perm l := by
  cases l with
  | nil => exact List.Perm.refl _
  | cons a t => exact bubblePass_perm cmp t a

theorem passIter_perm (cmp : α → α → Int) :
    ∀ (n : Nat) (l : List α), (passIter cmp n l).Perm l := by
  intro n
  induction n with
  | zero => intro l; exact List.Perm.refl _
  | succ n ih =>
    intro l
    exact (ih (bubblePassL cmp l)).trans (bubblePassL_perm cmp l)

theorem passIter_nil (cmp : α → α → Int) : ∀ n : Nat, passIter cmp n ([] : List α) = [] := by
  intro n
  induction n with
  | zero => rfl
  | succ n ih => simpa [passIter, bubblePassL] using ih

theorem passIter_of_pairwise (cmp : α → α → Int) :
    ∀ (n : Nat) (l : List α), List.Pairwise (fun x y => ¬ cmp x y > 0) l →
      passIter cmp n l = l := by
  intro n
  induction n with
  | zero => intro l _; rfl
  | succ n ih =>
    intro l hl
    have hL : bubblePassL cmp l = l := by
      cases l with
      | nil => rfl
      | cons a t => exact bubblePass_of_pairwise cmp t a hl
    simpa [passIter, hL] using ih l hl

theorem passIter_append (cmp : α → α → Int) :
    ∀ (n : Nat) (xs ys : List α),
      (∀ x ∈ xs, ∀ y ∈ ys, ¬ cmp x y > 0) →
      List.Pairwise (fun x y => ¬ cmp x y > 0) ys →
      passIter cmp n (xs ++ ys) = passIter cmp n xs ++ ys := by
  intro n
  induction n with
  | zero => intro xs ys _ _; rfl
  | succ n ih =>
    intro xs ys hcross hys
    cases xs with
    | nil =>
      show passIter cmp (n + 1) ys = passIter cmp (n + 1) [] ++ ys
      rw [passIter_nil, passIter_of_pairwise cmp (n + 1) ys hys]
      rfl
    | cons a xs2 =>
      have h1 : bubblePassL cmp ((a :: xs2) ++ ys) = bubblePass cmp a xs2 ++ ys := by
        simp only [List.cons_append, bubblePassL]
        exact bubblePass_append cmp xs2 a ys (fun x hx => hcross x hx) hys
      have hsub : ∀ x ∈ bubblePass cmp a xs2, ∀ y ∈ ys, ¬ cmp x y > 0 := by
        intro x hx
        exact hcross x ((bubblePass_perm cmp xs2 a).mem_iff.mp hx)
      calc passIter cmp (n + 1) ((a :: xs2) ++ ys)
          = passIter cmp n (bubblePass cmp a xs2 ++ ys) := by
            simp only [passIter]; rw [h1]
        _ = passIter cmp n (bubblePass cmp a xs2) ++ ys := ih _ ys hsub hys
        _ = passIter cmp (n + 1) (a :: xs2) ++ ys := by simp only [passIter, bubblePassL]

theorem passIter_sorted (cmp : α → α → Int)
    (hrefl : ∀ a : α, ¬ cmp a a > 0)
    (htot : ∀ a b : α, cmp a b > 0 → ¬ cmp b a > 0)
    (htrans : ∀ a b c : α, ¬ cmp a b > 0 → ¬ cmp b c > 0 → ¬ cmp a c > 0) :
    ∀ (n : Nat) (l : List α), l.length ≤ n + 1 →
      List.Pairwise (fun x y => ¬ cmp x y > 0) (passIter cmp n l) := by
  intro n
  induction n with
  | zero =>
    intro l hl
    cases l with
    | nil => exact List.Pairwise.nil
    | cons a t =>
      cases t with
      | nil => exact List.pairwise_singleton _ _
      | cons b t2 => simp at hl
  | succ n ih =>
    intro l hl
    cases l with
    | nil => rw [passIter_nil]; exact List.Pairwise.nil
    | cons a t =>
      obtain ⟨s, m, hsplit, hub⟩ := bubblePass_last cmp hrefl htot htrans t a
      have hmem : ∀ x ∈ s ++ [m], x ∈ a :: t := by
        intro x hx
        exact ((hsplit ▸ bubblePass_perm cmp t a).mem_iff).mp hx
      have hcross : ∀ x ∈ s, ∀ y ∈ [m], ¬ cmp x y > 0 := by
        intro x hx y hy
        simp only [List.mem_singleton] at hy
        subst hy
        exact hub x (hmem x (by simp [hx]))
      have hlen : s.length ≤ n + 1 := by
        have := (hsplit ▸ bubblePass_perm cmp t a).length_eq
        simp at this
        simp at hl
        omega
      have step : passIter cmp (n + 1) (a :: t) = passIter cmp n s ++ [m] := by
        simp only [passIter, bubblePassL]
        rw [hsplit]
        exact passIter_append cmp n s [m] hcross (by simp)
      rw [step]
      apply List.pairwise_append.mpr
      refine ⟨ih s hlen, by simp, ?_⟩
      intro x hx y hy
      simp only [List.mem_singleton] at hy
      subst hy
      exact hub x (hmem x (by simp [(passIter_perm cmp n s).mem_iff.mp hx]))

theorem jsSortArray_sorted (cmp : α → α → Int)
    (hrefl : ∀ a : α, ¬ cmp a a > 0)
    (htot : ∀ a b : α, cmp a b > 0 → ¬ cmp b a > 0)
    (htrans : ∀ a b c : α, ¬ cmp a b > 0 → ¬ cmp b c > 0 → ¬ cmp a c > 0)
    (l : List α) : List.Pairwise (fun x y => ¬ cmp x y > 0) (jsSortArray cmp l) :=
  passIter_sorted cmp hrefl htot htrans (l.length - 1) l (by omega)

theorem jsSortArray_perm (cmp : α → α → Int) (l : List α) :
    (jsSortArray cmp l).Perm l := passIter_perm cmp (l.length - 1) l

/-! ## Facts about the concrete comparators -/

theorem cmpIdStr_nonpos_iff (x y : String) :
    (¬ cmpIdStr x y > 0) ↔ jsStrLeB x y = true := by
  unfold cmpIdStr jsStrLtB jsStrLeB
  by_cases h1 : charListLeB x.data y.data = true
  · by_cases h2 : charListLeB y.data x.data = true
    · simp [h1, h2]
    · simp [h1, h2]
  · have h2 : charListLeB y.data x.data = true :=
      (charListLeB_total x.data y.data).resolve_left h1
    simp [h1, h2]

theorem cmpIdStr_refl (x : String) : ¬ cmpIdStr x x > 0 :=
  (cmpIdStr_nonpos_iff x x).mpr (jsStrLeB_refl x)

theorem cmpIdStr_tot (x y : String) (h : cmpIdStr x y > 0) : ¬ cmpIdStr y x > 0 := by
  rw [cmpIdStr_nonpos_iff]
  rcases jsStrLeB_total x y with h1 | h1
  · exact absurd ((cmpIdStr_nonpos_iff x y).mpr h1) (by simpa using h)
  · exact h1

theorem cmpIdStr_trans (x y z : String) (h1 : ¬ cmpIdStr x y > 0)
    (h2 : ¬ cmpIdStr y z > 0) : ¬ cmpIdStr x z > 0 := by
  rw [cmpIdStr_nonpos_iff] at h1 h2 ⊢
  exact jsStrLeB_trans h1 h2

theorem cmpMeta_refl (a : OperationMeta) : ¬ cmpMeta a a > 0 := cmpIdStr_refl _

theorem cmpMeta_tot (a b : OperationMeta) (h : cmpMeta a b > 0) : ¬ cmpMeta b a > 0 :=
  cmpIdStr_tot _ _ h

theorem cmpMeta_trans (a b c : OperationMeta) (h1 : ¬ cmpMeta a b > 0)
    (h2 : ¬ cmpMeta b c > 0) : ¬ cmpMeta a c > 0 := cmpIdStr_trans _ _ _ h1 h2

theorem cmpInner_refl (a : unCoveredOperationsFormatInner) : ¬ cmpInner a a > 0 :=
  cmpIdStr_refl _

theorem cmpInner_tot (a b : unCoveredOperationsFormatInner) (h : cmpInner a b > 0) :
    ¬ cmpInner b a > 0 := cmpIdStr_tot _ _ h

theorem cmpInner_trans (a b c : unCoveredOperationsFormatInner) (h1 : ¬ cmpInner a b > 0)
    (h2 : ¬ cmpInner b c > 0) : ¬ cmpInner a c > 0 := cmpIdStr_trans _ _ _ h1 h2

theorem jsLocaleCompare_nonpos_iff (a b : String) :
    (¬ jsLocaleCompare a b > 0) ↔
      ((jsToLower a = jsToLower b ∧ jsStrLeB a b = true) ∨
        (jsToLower a ≠ jsToLower b ∧ jsStrLeB (jsToLower a) (jsToLower b) = true)) := by
  unfold jsLocaleCompare
  by_cases heq : jsToLower a = jsToLower b
  · by_cases hab : a = b
    · subst hab
      simp [heq, jsStrLeB_refl]
    · by_cases hle : jsStrLeB a b = true
      · simp [heq, hab, hle]
      · simp [heq, hab, hle]
  · by_cases hle : jsStrLeB (jsToLower a) (jsToLower b) = true
    · simp [heq, hle]
    · simp [heq, hle]

theorem jsLocaleCompare_refl (a : String) : ¬ jsLocaleCompare a a > 0 :=
  (jsLocaleCompare_nonpos_iff a a).mpr (Or.inl ⟨rfl, jsStrLeB_refl a⟩)

theorem jsLocaleCompare_tot (a b : String) (h : jsLocaleCompare a b > 0) :
    ¬ jsLocaleCompare b a > 0 := by
  rw [jsLocaleCompare_nonpos_iff]
  have hneg : ¬ ((jsToLower a = jsToLower b ∧ jsStrLeB a b = true) ∨
      (jsToLower a ≠ jsToLower b ∧ jsStrLeB (jsToLower a) (jsToLower b) = true)) := by
    rw [← jsLocaleCompare_nonpos_iff]
    simpa using h
  push_neg at hneg
  by_cases heq : jsToLower a = jsToLower b
  · left
    refine ⟨heq.symm, ?_⟩
    exact (jsStrLeB_total a b).resolve_left (hneg.1 heq)
  · right
    refine ⟨fun hc => heq hc.symm, ?_⟩
    exact (jsStrLeB_total (jsToLower a) (jsToLower b)).resolve_left (hneg.2 heq)

theorem jsLocaleCompare_trans (a b c : String) (h1 : ¬ jsLocaleCompare a b > 0)
    (h2 : ¬ jsLocaleCompare b c > 0) : ¬ jsLocaleCompare a c > 0 := by
  rw [jsLocaleCompare_nonpos_iff] at h1 h2 ⊢
  rcases h1 with ⟨e1, l1⟩ | ⟨n1, l1⟩
  · rcases h2 with ⟨e2, l2⟩ | ⟨n2, l2⟩
    · exact Or.inl ⟨e1.trans e2, jsStrLeB_trans l1 l2⟩
    · exact Or.inr ⟨fun hc => n2 (e1 ▸ hc), e1 ▸ l2⟩
  · rcases h2 with ⟨e2, l2⟩ | ⟨n2, l2⟩
    · refine Or.inr ⟨?_, e2 ▸ l1⟩
      intro hac
      exact n1 (hac.trans e2.symm)
    · refine Or.inr ⟨?_, jsStrLeB_trans l1 l2⟩
      intro hac
      exact n1 (jsStrLeB_antisymm l1 (hac ▸ l2))

theorem cmpBatch_refl (a : unCoveredOperationsFormat) : ¬ cmpBatch a a > 0 :=
  jsLocaleCompare_refl _

theorem cmpBatch_tot (a b : unCoveredOperationsFormat) (h : cmpBatch a b > 0) :
    ¬ cmpBatch b a > 0 := jsLocaleCompare_tot _ _ h

theorem cmpBatch_trans (a b c : unCoveredOperationsFormat) (h1 : ¬ cmpBatch a b > 0)
    (h2 : ¬ cmpBatch b c > 0) : ¬ cmpBatch a c > 0 := jsLocaleCompare_trans _ _ _ h1 h2


/-! ## Lookup facts for the object-as-map model -/

theorem jsObjSet_lookup_self {β : Type} (k : String) (v : β) :
    ∀ m : List (String × β), (jsObjSet m k v).lookup k = some v := by
  intro m
  induction m with
  | nil => simp [jsObjSet, List.lookup]
  | cons x t ih =>
    obtain ⟨a, b⟩ := x
    by_cases hak : a = k
    · simp [jsObjSet, if_pos hak, List.lookup]
    · have hbeq : (k == a) = false := beq_false_of_ne (fun hc => hak hc.symm)
      simp only [jsObjSet, if_neg hak, List.lookup, hbeq]
      exact ih

theorem jsObjSet_lookup_ne {β : Type} (k k2 : String) (v : β) (hne : k2 ≠ k) :
    ∀ m : List (String × β), (jsObjSet m k v).lookup k2 = m.lookup k2 := by
  intro m
  induction m with
  | nil => simp [jsObjSet, List.lookup, beq_false_of_ne hne]
  | cons x t ih =>
    obtain ⟨a, b⟩ := x
    by_cases hak : a = k
    · subst hak
      simp only [jsObjSet, if_pos rfl, List.lookup, beq_false_of_ne hne]
    · simp only [jsObjSet, if_neg hak, List.lookup]
      cases hk2a : (k2 == a) with
      | true => rfl
      | false => exact ih

theorem lookup_of_keysNodup {β : Type} :
    ∀ {m : List (String × β)}, (m.map Prod.fst).Nodup →
      ∀ {k : String} {v : β}, (k, v) ∈ m → m.lookup k = some v := by
  intro m
  induction m with
  | nil => intro _ k v h; simp at h
  | cons x t ih =>
    obtain ⟨a, b⟩ := x
    intro hnd k v hmem
    simp only [List.map, List.nodup_cons] at hnd
    rcases List.mem_cons.mp hmem with h | h
    · obtain ⟨h1, h2⟩ := Prod.mk.injEq k v a b ▸ h
      subst h1
      subst h2
      simp [List.lookup]
    · have hk : k ∈ t.map Prod.fst := List.mem_map.mpr ⟨(k, v), h, rfl⟩
      have hne : k ≠ a := fun hc => hnd.1 (hc ▸ hk)
      simp only [List.lookup, beq_false_of_ne hne]
      exact ih hnd.2 h

theorem recordOperation_lookup_eq (m : List (String × List String)) (f opId : String) :
    (recordOperation m f opId).lookup f =
      some (if ((m.lookup f).getD []).contains opId then (m.lookup f).getD []
            else (m.lookup f).getD [] ++ [opId]) := by
  unfold recordOperation
  cases h : m.lookup f with
  | some cur =>
    simp only [h, Option.isSome_some, if_true, Option.getD_some]
    by_cases hc : cur.contains opId = true
    · rw [if_pos hc, if_pos hc]
      exact h
    · rw [if_neg hc, if_neg hc]
      exact jsObjSet_lookup_self f (cur ++ [opId]) m
  | none =>
    simp only [h, Option.isSome_none, Bool.false_eq_true, if_false, Option.getD_none,
      jsObjSet_lookup_self f ([] : List String) m, Option.getD_some]
    have hc : (([] : List String).contains opId) = false := rfl
    rw [hc]
    simp only [Bool.false_eq_true, if_false, List.nil_append]
    exact jsObjSet_lookup_self f [opId] _

theorem recordOperation_lookup_ne (m : List (String × List String)) (f opId k : String)
    (hne : k ≠ f) : (recordOperation m f opId).lookup k = m.lookup k := by
  unfold recordOperation
  cases h : m.lookup f with
  | some cur =>
    simp only [h, Option.isSome_some, if_true, Option.getD_some]
    by_cases hc : cur.contains opId = true
    · rw [if_pos hc]
    · rw [if_neg hc]
      exact jsObjSet_lookup_ne f k (cur ++ [opId]) hne m
  | none =>
    simp only [h, Option.isSome_none, Bool.false_eq_true, if_false,
      jsObjSet_lookup_self f ([] : List String) m, Option.getD_some]
    have hc : (([] : List String).contains opId) = false := rfl
    rw [hc]
    simp only [Bool.false_eq_true, if_false, List.nil_append]
    rw [jsObjSet_lookup_ne f k [opId] hne _]
    exact jsObjSet_lookup_ne f k [] hne m

/-! ## Claim theorems -/

/-- C7: for every request with no content-type header the gate emits no
issue; for every response with an absent content-type header the effective
type is application/octet-stream and a violation issue is emitted iff that
string is not in the allowed list; the observed type is the header value
split at the first semicolon and compared case-sensitively, witnessed by
the two closed conjuncts where only parameter stripping respectively
letter case decides the outcome. -/
theorem c7_content_type_gate (allowed : List String) (headers : List (String × String)) :
    (headers.lookup "content-type" = none →
      validateContentType allowed headers true = [] ∧
      validateContentType allowed headers false =
        (if allowed.contains "application/octet-stream" then []
         else [issueFromErrorCode "INVALID_CONTENT_TYPE"
           [("contentType", "application/octet-stream"),
            ("supported", jsJoin ", " allowed)] none])) ∧
    (∀ (v : String) (isReq : Bool), headers.lookup "content-type" = some v →
      (jsSplitOn v ';').headD "" ≠ "" →
      validateContentType allowed headers isReq =
        (if allowed.contains ((jsSplitOn v ';').headD "") then []
         else [issueFromErrorCode "INVALID_CONTENT_TYPE"
           [("contentType", (jsSplitOn v ';').headD ""),
            ("supported", jsJoin ", " allowed)] none])) ∧
    validateContentType ["application/json"]
      [("content-type", "Application/Json; charset=utf-8")] true =
      [issueFromErrorCode "INVALID_CONTENT_TYPE"
        [("contentType", "Application/Json"), ("supported", "application/json")] none] ∧
    validateContentType ["application/json"]
      [("content-type", "application/json; charset=utf-8")] true = [] := by
  refine ⟨?_, ?_, ?_, ?_⟩
  · intro h
    constructor
    · simp [validateContentType, h]
    · by_cases hc : allowed.contains "application/octet-stream" = true
      · simp [validateContentType, h, hc]
      · simp [validateContentType, h, hc]
  · intro v isReq h hne
    have headD_eq : ∀ (l : List String) (d : String), l.headD d = l.head?.getD d := by
      intro l d
      cases l <;> rfl
    have hne2 : ¬ ((jsSplitOn v ';').head?.getD "" = "") := by
      rw [← headD_eq]
      exact hne
    simp [validateContentType, h, hne2, headD_eq]
  · rfl
  · rfl

/-- C7 witness: with no content-type header a request yields no issue and
a response defaults to application/octet-stream, rejected when the allowed
list is only application/json. -/
theorem c7_content_type_gate_witness :
    validateContentType ["application/json"] [] true = [] ∧
    validateContentType ["application/json"] [] false =
      [issueFromErrorCode "INVALID_CONTENT_TYPE"
        [("contentType", "application/octet-stream"),
         ("supported", "application/json")] none] := by
  have h := c7_content_type_gate ["application/json"] []
  have h1 := h.1 rfl
  exact ⟨h1.1, by simpa using h1.2⟩

/-- C6: the LRO header check passes exactly when one of location,
azure-AsyncOperation or azure-asyncoperation is present and non-empty in
the normalized headers, and otherwise emits exactly one issue whose
message names both accepted header names; in particular a long-running
delete answered 202 with a Location header yields zero issues and the same
response with none of the three headers yields exactly that one issue. -/
theorem c6_lro_header_check (op : Operation) (headers : List (String × String)) :
    ((∃ v, (headers.lookup "location" = some v ∨
        headers.lookup "azure-AsyncOperation" = some v ∨
        headers.lookup "azure-asyncoperation" = some v) ∧ v ≠ "") →
      validateLroHeader op headers = []) ∧
    ((headers.lookup "location" = none ∨ headers.lookup "location" = some "") →
     (headers.lookup "azure-AsyncOperation" = none ∨
        headers.lookup "azure-AsyncOperation" = some "") →
     (headers.lookup "azure-asyncoperation" = none ∨
        headers.lookup "azure-asyncoperation" = some "") →
      validateLroHeader op headers =
        [issueFromErrorCode "LRO_RESPONSE_HEADER"
          [("header", "location or azure-AsyncOperation")] (some op.responsesInfo)]) ∧
    (op.lro = true → op._method = "delete" →
      validateLroOperation op "202"
        (transformLiveHeader [("Location", "https://contoso/poll")] none) = [] ∧
      validateLroOperation op "202" [] =
        [issueFromErrorCode "LRO_RESPONSE_HEADER"
          [("header", "location or azure-AsyncOperation")] (some op.responsesInfo)]) ∧
    (jsIncludes (issueFromErrorCode "LRO_RESPONSE_HEADER"
        [("header", "location or azure-AsyncOperation")] (some op.responsesInfo)).message
        "location" = true ∧
     jsIncludes (issueFromErrorCode "LRO_RESPONSE_HEADER"
        [("header", "location or azure-AsyncOperation")] (some op.responsesInfo)).message
        "azure-AsyncOperation" = true) := by
  refine ⟨?_, ?_, ?_, ?_, ?_⟩
  · rintro ⟨v, hv, hvne⟩
    rcases hv with h | h | h <;> simp [validateLroHeader, h, hvne]
  · intro h1 h2 h3
    rcases h1 with h1 | h1 <;> rcases h2 with h2 | h2 <;> rcases h3 with h3 | h3 <;>
      simp [validateLroHeader, h1, h2, h3]
  · intro hlro hm
    constructor
    · have ht : transformLiveHeader [("Location", "https://contoso/poll")] none =
          [("location", "https://contoso/poll")] := rfl
      rw [ht]
      simp [validateLroOperation, hlro, hm, validateLroHeader, List.lookup]
    · simp [validateLroOperation, hlro, hm, validateLroHeader, List.lookup]
  · have hmsg : (issueFromErrorCode "LRO_RESPONSE_HEADER"
        [("header", "location or azure-AsyncOperation")] (some op.responsesInfo)).message =
        getValidateErrorMessage "LRO_RESPONSE_HEADER"
          [("header", "location or azure-AsyncOperation")] := rfl
    rw [hmsg]
    decide
  · have hmsg : (issueFromErrorCode "LRO_RESPONSE_HEADER"
        [("header", "location or azure-AsyncOperation")] (some op.responsesInfo)).message =
        getValidateErrorMessage "LRO_RESPONSE_HEADER"
          [("header", "location or azure-AsyncOperation")] := rfl
    rw [hmsg]
    decide

/-- C6 witness: the characterization applied to a concrete long-running
delete operation, with and without a location header. -/
theorem c6_lro_header_check_witness :
    validateLroHeader sampleDeleteLro [("location", "https://contoso/poll")] = [] ∧
    validateLroOperation sampleDeleteLro "202" [] =
      [issueFromErrorCode "LRO_RESPONSE_HEADER"
        [("header", "location or azure-AsyncOperation")] (some "responses-info")] := by
  constructor
  · exact (c6_lro_header_check sampleDeleteLro
      [("location", "https://contoso/poll")]).1
      ⟨"https://contoso/poll", Or.inl rfl, by decide⟩
  · exact ((c6_lro_header_check sampleDeleteLro []).2.2.1 rfl rfl).2

/-- C5: the LRO status-code and header rule, for every long-running
operation: patch and post accept only 201 and 202 and always run the
header check on them; delete accepts only 202 and 204 and runs the header
check only on 202; put accepts 200, 201 and 202 and runs the header check
on 201 and 202 but never on 200; any other status code for these methods
yields exactly the invalid-LRO-response-code issue, and any other method
is subject to no rule. -/
theorem c5_lro_rule_table (op : Operation) (sc : String)
    (headers : List (String × String)) (hlro : op.lro = true) :
    ((op._method = "patch" ∨ op._method = "post") →
      (sc ≠ "201" ∧ sc ≠ "202" → validateLroOperation op sc headers =
        [issueFromErrorCode "LRO_RESPONSE_CODE" [("statusCode", sc)] (some op.responsesInfo)]) ∧
      ((sc = "201" ∨ sc = "202") → validateLroOperation op sc headers =
        validateLroHeader op headers)) ∧
    (op._method = "delete" →
      (sc ≠ "202" ∧ sc ≠ "204" → validateLroOperation op sc headers =
        [issueFromErrorCode "LRO_RESPONSE_CODE" [("statusCode", sc)] (some op.responsesInfo)]) ∧
      (sc = "204" → validateLroOperation op sc headers = []) ∧
      (sc = "202" → validateLroOperation op sc headers = validateLroHeader op headers)) ∧
    (op._method = "put" →
      ((sc = "201" ∨ sc = "202") → validateLroOperation op sc headers =
        validateLroHeader op headers) ∧
      (sc = "200" → validateLroOperation op sc headers = []) ∧
      (sc ≠ "200" ∧ sc ≠ "201" ∧ sc ≠ "202" → validateLroOperation op sc headers =
        [issueFromErrorCode "LRO_RESPONSE_CODE" [("statusCode", sc)] (some op.responsesInfo)])) ∧
    (op._method ≠ "patch" → op._method ≠ "post" → op._method ≠ "delete" →
      op._method ≠ "put" → validateLroOperation op sc headers = []) := by
  refine ⟨?_, ?_, ?_, ?_⟩
  · intro hm
    constructor
    · intro hsc
      simp [validateLroOperation, hlro, hm, hsc.1, hsc.2]
    · intro hsc
      rcases hsc with rfl | rfl <;> simp [validateLroOperation, hlro, hm]
  · intro hm
    refine ⟨?_, ?_, ?_⟩
    · intro hsc
      simp [validateLroOperation, hlro, hm, hsc.1, hsc.2]
    · intro hsc
      subst hsc
      simp [validateLroOperation, hlro, hm]
    · intro hsc
      subst hsc
      simp [validateLroOperation, hlro, hm]
  · intro hm
    refine ⟨?_, ?_, ?_⟩
    · intro hsc
      rcases hsc with rfl | rfl <;> simp [validateLroOperation, hlro, hm]
    · intro hsc
      subst hsc
      simp [validateLroOperation, hlro, hm]
    · intro hsc
      simp [validateLroOperation, hlro, hm, hsc.1, hsc.2.1, hsc.2.2]
  · intro h1 h2 h3 h4
    simp [validateLroOperation, hlro, h1, h2, h3, h4]

/-- C5 witness: the rule table applied to a long-running delete operation
at the status codes 204, 202 and 500. -/
theorem c5_lro_rule_table_witness :
    validateLroOperation sampleDeleteLro "204" [] = [] ∧
    validateLroOperation sampleDeleteLro "202" [("location", "x")] =
      validateLroHeader sampleDeleteLro [("location", "x")] ∧
    validateLroOperation sampleDeleteLro "500" [] =
      [issueFromErrorCode "LRO_RESPONSE_CODE" [("statusCode", "500")] (some "responses-info")] := by
  refine ⟨?_, ?_, ?_⟩
  · exact ((c5_lro_rule_table sampleDeleteLro "204" [] rfl).2.1 rfl).2.1 rfl
  · exact ((c5_lro_rule_table sampleDeleteLro "202" [("location", "x")] rfl).2.1 rfl).2.2 rfl
  · exact ((c5_lro_rule_table sampleDeleteLro "500" [] rfl).2.1 rfl).1 (by decide)

/-- C4: the response definition is resolved by exact status-code match
with a fallback to the declared default definition only when the parsed
status code lies in 400..599; when nothing resolves, the call returns
exactly one invalid-response-code issue and performs no further check.
The closed conjuncts run the scenario of a schema declaring only 200 and
default: 503 resolves to the default definition (its canary validator
runs), 301 resolves to nothing and short-circuits. -/
theorem c4_response_code_resolution (response : LiveResponse) (op : Operation)
    (loader : Option (Response → SchemaValidateContext → ResponsePayload → List LiveValidationIssue))
    (includeErrors : Option (List String)) (isArmCall : Option Bool) :
    (statusInDefaultRange response.statusCode = true ↔
      ∃ n, parseIntJS response.statusCode = some n ∧ 400 ≤ n ∧ n ≤ 599) ∧
    (op.responses.lookup response.statusCode = none →
      statusInDefaultRange response.statusCode = false →
      validateSwaggerLiveResponse response op loader includeErrors isArmCall =
        .ok [issueFromErrorCode "INVALID_RESPONSE_CODE"
          [("statusCode", response.statusCode)] (some op.responsesInfo)]) ∧
    (op.responses.lookup response.statusCode = none →
      op.responses.lookup "default" = none →
      validateSwaggerLiveResponse response op loader includeErrors isArmCall =
        .ok [issueFromErrorCode "INVALID_RESPONSE_CODE"
          [("statusCode", response.statusCode)] (some op.responsesInfo)]) ∧
    (∃ out, validateSwaggerLiveResponse (bareLiveResponse "503") twoHundredAndDefaultOp
        none none none = .ok [out] ∧ out.code = "CANARY") ∧
    (∃ out, validateSwaggerLiveResponse (bareLiveResponse "200") twoHundredAndDefaultOp
        none none none = .ok [out] ∧ out.code = "CANARY") ∧
    validateSwaggerLiveResponse (bareLiveResponse "301") twoHundredAndDefaultOp none none none =
      .ok [issueFromErrorCode "INVALID_RESPONSE_CODE" [("statusCode", "301")]
        (some "responses-info")] := by
  refine ⟨?_, ?_, ?_, ?_, ?_, ?_⟩
  · unfold statusInDefaultRange
    cases h : parseIntJS response.statusCode with
    | none => simp
    | some n => simp
  · intro h1 h2
    simp [validateSwaggerLiveResponse, h1, h2]
  · intro h1 h2
    simp [validateSwaggerLiveResponse, h1, h2]
  · exact ⟨_, rfl, rfl⟩
  · exact ⟨_, rfl, rfl⟩
  · rfl

/-- C4 witness: a response map declaring nothing resolves no status code,
yielding exactly the invalid-response-code issue. -/
theorem c4_response_code_resolution_witness :
    validateSwaggerLiveResponse (bareLiveResponse "201") sampleOperation none none none =
      .ok [issueFromErrorCode "INVALID_RESPONSE_CODE" [("statusCode", "201")]
        (some "responses-info")] :=
  (c4_response_code_resolution (bareLiveResponse "201") sampleOperation
    none none none).2.2.1 rfl rfl

/-! ## Classifier facts -/

theorem jsStartsWith_headers_not_body (p : String)
    (h : jsStartsWith p ".headers" = true) : jsStartsWith p ".body" = false := by
  unfold jsStartsWith at h ⊢
  obtain ⟨d⟩ := p
  match d with
  | [] => simp [List.isPrefixOf] at h
  | [c1] => simp [List.isPrefixOf] at h
  | c1 :: c2 :: rest =>
    simp only [List.isPrefixOf, Bool.and_eq_true, beq_iff_eq] at h ⊢
    obtain ⟨h1, h2, _⟩ := h
    simp [← h1, ← h2]

theorem schemaValidateIssue_append (op : Operation) (ctx : SchemaValidateContext) :
    ∀ pre rest : List LiveValidationIssue,
      schemaValidateIssueToLiveValidationIssue (pre ++ rest) op ctx =
        schemaValidateIssueToLiveValidationIssue pre op ctx ++
        schemaValidateIssueToLiveValidationIssue rest op ctx := by
  intro pre
  induction pre with
  | nil => intro rest; rfl
  | cons i t ih =>
    intro rest
    simp only [List.cons_append, schemaValidateIssueToLiveValidationIssue]
    by_cases h : (classifyIssue op ctx i).2 = true
    · rw [if_pos h, if_pos h]
      exact ih rest
    · rw [if_neg h, if_neg h]
      exact congrArg ((classifyIssue op ctx i).1 :: ·) (ih rest)

theorem classifyIssue_skip_lro (op : Operation) (ctx : SchemaValidateContext)
    (i : LiveValidationIssue) (hlro : op.lro = true) (hresp : ctx.isResponse = true)
    (hsc : ctx.statusCode = some "201" ∨ ctx.statusCode = some "202")
    (hcode : i.code = "OBJECT_MISSING_REQUIRED_PROPERTY")
    (hpath : i.jsonPathsInPayload = [".body"]) :
    (classifyIssue op ctx i).2 = true := by
  have hb : jsStartsWith ".body" ".body" = true := by decide
  have hl : (decide (jsLength ".body" > 5)) = false := by decide
  rcases hsc with hsc | hsc <;>
    simp [classifyIssue, classifyPathStep, hpath, hcode, hresp, hlro, hsc, hb, hl]

/-- C3: a missing-required-property issue at the body root of a
long-running operation response with status 201 or 202 is suppressed
entirely, and suppression never reorders the surviving issues: the output
is always a sublist of the classified input in input order. -/
theorem c3_lro_async_body_suppressed (op : Operation) (ctx : SchemaValidateContext)
    (i : LiveValidationIssue) (pre post : List LiveValidationIssue)
    (hlro : op.lro = true) (hresp : ctx.isResponse = true)
    (hsc : ctx.statusCode = some "201" ∨ ctx.statusCode = some "202")
    (hcode : i.code = "OBJECT_MISSING_REQUIRED_PROPERTY")
    (hpath : i.jsonPathsInPayload = [".body"]) :
    schemaValidateIssueToLiveValidationIssue (pre ++ i :: post) op ctx =
      schemaValidateIssueToLiveValidationIssue pre op ctx ++
      schemaValidateIssueToLiveValidationIssue post op ctx ∧
    ∀ input : List LiveValidationIssue,
      (schemaValidateIssueToLiveValidationIssue input op ctx).Sublist
        (input.map fun j => (classifyIssue op ctx j).1) := by
  constructor
  · rw [schemaValidateIssue_append]
    have hskip := classifyIssue_skip_lro op ctx i hlro hresp hsc hcode hpath
    simp only [schemaValidateIssueToLiveValidationIssue, hskip, if_true]
  · intro input
    induction input with
    | nil => simp [schemaValidateIssueToLiveValidationIssue]
    | cons j t ih =>
      simp only [schemaValidateIssueToLiveValidationIssue, List.map]
      by_cases h : (classifyIssue op ctx j).2 = true
      · rw [if_pos h]
        exact ih.cons _
      · rw [if_neg h]
        exact ih.cons₂ _

/-- C3 witness: the classifier run on exactly one body-root
missing-required-property issue of a long-running 201 response yields no
issue at all. -/
theorem c3_lro_async_body_suppressed_witness :
    schemaValidateIssueToLiveValidationIssue [missingPropIssue ".body"]
      sampleDeleteLro response201Context = [] := by
  have h := (c3_lro_async_body_suppressed sampleDeleteLro response201Context
    (missingPropIssue ".body") [] [] rfl rfl (Or.inl rfl) rfl rfl).1
  simpa using h

/-- C2 counterexample: a request-mode missing-required-property issue
whose path lies strictly inside the body (".body.properties") keeps its
original code, so not every such request issue becomes a
missing-required-parameter issue. -/
theorem c2_counterexample :
    (schemaValidateIssueToLiveValidationIssue [missingPropIssue ".body.properties"]
        sampleOperation requestContext).map (fun j => j.code) =
      ["OBJECT_MISSING_REQUIRED_PROPERTY"] ∧
    "OBJECT_MISSING_REQUIRED_PROPERTY" ≠ "MISSING_REQUIRED_PARAMETER" := by
  constructor
  · rfl
  · decide

/-- C2 amended: reclassification of a missing-required-property issue
applies only when the JSON path is at the body root or outside the body.
In a response, a body-root issue (when not suppressed by the LRO rule)
becomes invalid-response-body and a .headers path becomes
invalid-response-header; in a request, a body-root or non-body path
becomes missing-required-parameter.  In each case the message is
regenerated from the new code with the missing property name and the
severity is recomputed.  An issue whose path lies strictly inside the body
is only path-rewritten and keeps its code. -/
theorem c2_missing_required_reclass (op : Operation) (ctx : SchemaValidateContext)
    (i : LiveValidationIssue) (p : String)
    (hcode : i.code = "OBJECT_MISSING_REQUIRED_PROPERTY")
    (hpath : i.jsonPathsInPayload = [p]) :
    (ctx.isResponse = true → p = ".body" →
      (op.lro = true → ctx.statusCode ≠ some "201" ∧ ctx.statusCode ≠ some "202") →
      (schemaValidateIssueToLiveValidationIssue [i] op ctx).map (fun j => j.code) =
        ["INVALID_RESPONSE_BODY"] ∧
      (schemaValidateIssueToLiveValidationIssue [i] op ctx).map (fun j => j.message) =
        [getValidateErrorMessage "INVALID_RESPONSE_BODY"
          [("missingProperty", i.params.headD "undefined")]] ∧
      (schemaValidateIssueToLiveValidationIssue [i] op ctx).map (fun j => j.severity) =
        [(errorCodeToErrorMetadata "INVALID_RESPONSE_BODY").severity]) ∧
    (ctx.isResponse = true → jsStartsWith p ".headers" = true →
      (schemaValidateIssueToLiveValidationIssue [i] op ctx).map (fun j => j.code) =
        ["INVALID_RESPONSE_HEADER"] ∧
      (schemaValidateIssueToLiveValidationIssue [i] op ctx).map (fun j => j.message) =
        [getValidateErrorMessage "INVALID_RESPONSE_HEADER"
          [("missingProperty", i.params.headD "undefined")]] ∧
      (schemaValidateIssueToLiveValidationIssue [i] op ctx).map (fun j => j.severity) =
        [(errorCodeToErrorMetadata "INVALID_RESPONSE_HEADER").severity]) ∧
    (ctx.isResponse = false → (p = ".body" ∨ jsStartsWith p ".body" = false) →
      (schemaValidateIssueToLiveValidationIssue [i] op ctx).map (fun j => j.code) =
        ["MISSING_REQUIRED_PARAMETER"] ∧
      (schemaValidateIssueToLiveValidationIssue [i] op ctx).map (fun j => j.message) =
        [getValidateErrorMessage "MISSING_REQUIRED_PARAMETER"
          [("missingProperty", i.params.headD "undefined")]] ∧
      (schemaValidateIssueToLiveValidationIssue [i] op ctx).map (fun j => j.severity) =
        [(errorCodeToErrorMetadata "MISSING_REQUIRED_PARAMETER").severity]) ∧
    (jsStartsWith p ".body" = true → jsLength p > 5 →
      (schemaValidateIssueToLiveValidationIssue [i] op ctx).map (fun j => j.code) =
        ["OBJECT_MISSING_REQUIRED_PROPERTY"] ∧
      (schemaValidateIssueToLiveValidationIssue [i] op ctx).map
        (fun j => j.jsonPathsInPayload) = [["$" ++ jsDropChars p 5]]) := by
  refine ⟨?_, ?_, ?_, ?_⟩
  · intro hresp hp hsup
    subst hp
    have hb : jsStartsWith ".body" ".body" = true := by decide
    have hl : (decide (jsLength ".body" > 5)) = false := by decide
    cases hlro : op.lro with
    | false =>
      refine ⟨?_, ?_, ?_⟩ <;>
        simp [schemaValidateIssueToLiveValidationIssue, classifyIssue, classifyPathStep,
          hpath, hcode, hresp, hlro, hb, hl]
    | true =>
      obtain ⟨h1, h2⟩ := hsup hlro
      have hb1 : (ctx.statusCode == some "201") = false := by
        simpa using h1
      have hb2 : (ctx.statusCode == some "202") = false := by
        simpa using h2
      refine ⟨?_, ?_, ?_⟩ <;>
        simp [schemaValidateIssueToLiveValidationIssue, classifyIssue, classifyPathStep,
          hpath, hcode, hresp, hlro, hb, hl, hb1, hb2]
  · intro hresp hhdr
    have hnb : jsStartsWith p ".body" = false := jsStartsWith_headers_not_body p hhdr
    refine ⟨?_, ?_, ?_⟩ <;>
      simp [schemaValidateIssueToLiveValidationIssue, classifyIssue, classifyPathStep,
        hpath, hcode, hresp, hhdr, hnb]
  · intro hresp hp
    rcases hp with hp | hp
    · subst hp
      have hb : jsStartsWith ".body" ".body" = true := by decide
      have hl : (decide (jsLength ".body" > 5)) = false := by decide
      refine ⟨?_, ?_, ?_⟩ <;>
        simp [schemaValidateIssueToLiveValidationIssue, classifyIssue, classifyPathStep,
          hpath, hcode, hresp, hb, hl]
    · refine ⟨?_, ?_, ?_⟩ <;>
        simp [schemaValidateIssueToLiveValidationIssue, classifyIssue, classifyPathStep,
          hpath, hcode, hresp, hp]
  · intro hb hl
    have hl2 : (decide (jsLength p > 5)) = true := by simpa using hl
    constructor <;>
      simp [schemaValidateIssueToLiveValidationIssue, classifyIssue, classifyPathStep,
        hpath, hcode, hb, hl2]

/-- C2 amended witness: a request issue at the body root is reclassified
to missing-required-parameter with regenerated message and severity. -/
theorem c2_missing_required_reclass_witness :
    (schemaValidateIssueToLiveValidationIssue [missingPropIssue ".body"]
        sampleOperation requestContext).map (fun j => j.code) =
      ["MISSING_REQUIRED_PARAMETER"] ∧
    (schemaValidateIssueToLiveValidationIssue [missingPropIssue ".body"]
        sampleOperation requestContext).map (fun j => j.message) =
      [getValidateErrorMessage "MISSING_REQUIRED_PARAMETER" [("missingProperty", "location")]] ∧
    (schemaValidateIssueToLiveValidationIssue [missingPropIssue ".body"]
        sampleOperation requestContext).map (fun j => j.severity) =
      [(errorCodeToErrorMetadata "MISSING_REQUIRED_PARAMETER").severity] := by
  have h := (c2_missing_required_reclass sampleOperation requestContext
    (missingPropIssue ".body") ".body" rfl rfl).2.2.1 rfl (Or.inl rfl)
  exact h

/-! ## Aggregator loop facts -/

theorem failCondition_false_of_success (r : RequestResponseValidationResult)
    (hreq : r.requestResult.isSuccessful = some true)
    (hresp : r.responseResult.isSuccessful = some true)
    (hexc : r.runtimeException = none) : failCondition r = false := by
  simp [failCondition, hreq, hresp, hexc]

theorem sampleFileStep_trafficOperation (s : TrafficSample) (st : ValidatorState) (f : String) :
    (sampleFileStep s st f).trafficOperation =
      recordOperation st.trafficOperation f s.opInfo.operationId := by
  unfold sampleFileStep
  by_cases h : failCondition s.result = true <;> simp [h]

theorem sampleFileStep_result_of_passing (s : TrafficSample) (st : ValidatorState) (f : String)
    (h : failCondition s.result = false) :
    (sampleFileStep s st f).trafficValidationResult = st.trafficValidationResult := by
  simp [sampleFileStep, h]

theorem mem_recordOperation_self (m : List (String × List String)) (f opId : String) :
    opId ∈ ((recordOperation m f opId).lookup f).getD [] := by
  rw [recordOperation_lookup_eq]
  by_cases hc : ((m.lookup f).getD []).contains opId = true
  · simp only [hc, if_true, Option.getD_some]
    simpa using hc
  · simp only [hc, Bool.false_eq_true, if_false, Option.getD_some]
    simp [hc]

theorem mem_recordOperation_mono (m : List (String × List String)) (f opId k x : String)
    (hx : x ∈ (m.lookup k).getD []) : x ∈ ((recordOperation m f opId).lookup k).getD [] := by
  by_cases hkf : k = f
  · subst hkf
    rw [recordOperation_lookup_eq]
    simp only [Option.getD_some]
    by_cases hc : ((m.lookup k).getD []).contains opId = true
    · rw [if_pos hc]
      exact hx
    · rw [if_neg hc]
      exact List.mem_append.mpr (Or.inl hx)
  · rw [recordOperation_lookup_ne _ _ _ _ hkf]
    exact hx

theorem foldFiles_trafficOperation_mono (s : TrafficSample) :
    ∀ (files : List String) (st : ValidatorState) (k x : String),
      x ∈ (st.trafficOperation.lookup k).getD [] →
      x ∈ (((files.foldl (sampleFileStep s) st).trafficOperation.lookup k).getD []) := by
  intro files
  induction files with
  | nil => intro st k x hx; exact hx
  | cons f t ih =>
    intro st k x hx
    apply ih
    rw [sampleFileStep_trafficOperation]
    exact mem_recordOperation_mono _ _ _ _ _ hx

theorem foldFiles_covers (s : TrafficSample) :
    ∀ (files : List String) (st : ValidatorState) (f : String), f ∈ files →
      s.opInfo.operationId ∈
        (((files.foldl (sampleFileStep s) st).trafficOperation.lookup f).getD []) := by
  intro files
  induction files with
  | nil => intro st f hf; simp at hf
  | cons g t ih =>
    intro st f hf
    simp only [List.foldl_cons]
    rcases List.mem_cons.mp hf with rfl | hf
    · apply foldFiles_trafficOperation_mono s t (sampleFileStep s st f) f
      rw [sampleFileStep_trafficOperation]
      exact mem_recordOperation_self _ _ _
    · exact ih _ f hf

theorem foldFiles_result_of_passing (s : TrafficSample) (h : failCondition s.result = false) :
    ∀ (files : List String) (st : ValidatorState),
      (files.foldl (sampleFileStep s) st).trafficValidationResult =
        st.trafficValidationResult := by
  intro files
  induction files with
  | nil => intro st; rfl
  | cons f t ih =>
    intro st
    simp only [List.foldl_cons]
    rw [ih (sampleFileStep s st f), sampleFileStep_result_of_passing s st f h]

theorem processSample_result_of_passing (mapper : List (String × List String))
    (st : ValidatorState) (s : TrafficSample) (h : failCondition s.result = false) :
    (processSample mapper st s).trafficValidationResult = st.trafficValidationResult := by
  unfold processSample
  by_cases he : (sampleSwaggerFiles mapper s).isEmpty = true
  · simp [he]
  · simp only [he, Bool.false_eq_true, if_false]
    exact foldFiles_result_of_passing s h _ st

theorem trafficValidateLoop_append (mapper : List (String × List String)) :
    ∀ (pre rest : List TrafficSample) (st : ValidatorState),
      (∀ x ∈ pre, x.raises = none) →
      trafficValidateLoop mapper st (pre ++ rest) =
        trafficValidateLoop mapper (trafficValidateLoop mapper st pre) rest := by
  intro pre
  induction pre with
  | nil => intro rest st _; rfl
  | cons x t ih =>
    intro rest st hpre
    have hx : x.raises = none := hpre x (by simp)
    simp only [List.cons_append, trafficValidateLoop, hx]
    exact ih rest _ (fun y hy => hpre y (by simp [hy]))

/-- C1 counterexample: with two samples where the first raises (a corrupt
traffic file) and the second would produce a failure record, the run
yields only the one catch record; the second sample is never processed,
although on its own it produces a record. -/
theorem c1_counterexample :
    (TrafficValidator.validate (fun p => p) sampleSpecMapper
        [raisingSample, failingSample]).trafficValidationResult =
      [catchRecord "traffic/bad.json" "Unexpected token"] ∧
    ((TrafficValidator.validate (fun p => p) sampleSpecMapper
        [failingSample]).trafficValidationResult).length = 1 := by
  constructor
  · rfl
  · rfl

/-- C1 amended: an exception raised while processing one sample is
captured as one runtime-exception record for that sample, but the try
block wraps the whole loop, so the run stops there: the result list is
what the samples before the corrupt one produced plus the one exception
record, and the samples after it are not processed. -/
theorem c1_exception_stops_run (apiVer : String → String)
    (mapper : List (String × List String)) (pre : List TrafficSample)
    (s : TrafficSample) (post : List TrafficSample) (msg : String)
    (hpre : ∀ x ∈ pre, x.raises = none) (hs : s.raises = some msg) :
    (TrafficValidator.validate apiVer mapper (pre ++ s :: post)).trafficValidationResult =
      (TrafficValidator.validate apiVer mapper pre).trafficValidationResult ++
        [catchRecord s.file msg] := by
  unfold TrafficValidator.validate
  rw [trafficValidateLoop_append mapper pre (s :: post) _ hpre]
  simp only [trafficValidateLoop, hs]

/-- C1 amended witness: a failing sample, then a corrupt one, then a
healthy one: the corrupt sample ends the run after the first record. -/
theorem c1_exception_stops_run_witness :
    (TrafficValidator.validate (fun p => p) sampleSpecMapper
        [failingSample, raisingSample, passingSample]).trafficValidationResult =
      (TrafficValidator.validate (fun p => p) sampleSpecMapper
        [failingSample]).trafficValidationResult ++
        [catchRecord "traffic/bad.json" "Unexpected token"] :=
  c1_exception_stops_run (fun p => p) sampleSpecMapper [failingSample]
    raisingSample [passingSample] "Unexpected token"
    (by intro x hx; simp at hx; subst hx; rfl) rfl

/-- C10: a sample whose request and response validations both succeed with
no runtime exception leaves the record list unchanged while still
recording its operation as covered for every matched specification file;
the record list grows only for samples meeting the failure condition, and
a run of only passing samples returns an empty record list. -/
theorem c10_only_failures_recorded (mapper : List (String × List String))
    (st : ValidatorState) (s : TrafficSample)
    (hreq : s.result.requestResult.isSuccessful = some true)
    (hresp : s.result.responseResult.isSuccessful = some true)
    (hexc : s.result.runtimeException = none) :
    (processSample mapper st s).trafficValidationResult = st.trafficValidationResult ∧
    (∀ f ∈ sampleSwaggerFiles mapper s,
      s.opInfo.operationId ∈
        (((processSample mapper st s).trafficOperation.lookup f).getD [])) ∧
    (∀ (st2 : ValidatorState) (s2 : TrafficSample),
      (processSample mapper st2 s2).trafficValidationResult ≠ st2.trafficValidationResult →
      failCondition s2.result = true) ∧
    (∀ (apiVer : String → String) (samples : List TrafficSample),
      (∀ x ∈ samples, x.raises = none ∧ failCondition x.result = false) →
      (TrafficValidator.validate apiVer mapper samples).trafficValidationResult = []) := by
  have hfc := failCondition_false_of_success s.result hreq hresp hexc
  refine ⟨processSample_result_of_passing mapper st s hfc, ?_, ?_, ?_⟩
  · intro f hf
    unfold processSample
    have hne : (sampleSwaggerFiles mapper s).isEmpty = false := by
      cases hE : sampleSwaggerFiles mapper s with
      | nil => rw [hE] at hf; simp at hf
      | cons a t => rfl
    simp only [hne, Bool.false_eq_true, if_false]
    exact foldFiles_covers s _ st f hf
  · intro st2 s2 hch
    by_contra hfc2
    exact hch (processSample_result_of_passing mapper st2 s2 (by simpa using hfc2))
  · intro apiVer samples hall
    unfold TrafficValidator.validate
    suffices H : ∀ (l : List TrafficSample) (st0 : ValidatorState),
        (∀ x ∈ l, x.raises = none ∧ failCondition x.result = false) →
        (trafficValidateLoop mapper st0 l).trafficValidationResult =
          st0.trafficValidationResult by
      exact H samples _ hall
    intro l
    induction l with
    | nil => intro st0 _; rfl
    | cons x t ih =>
      intro st0 hall2
      have hx := hall2 x (by simp)
      simp only [trafficValidateLoop, hx.1]
      rw [ih _ (fun y hy => hall2 y (by simp [hy]))]
      exact processSample_result_of_passing mapper st0 x hx.2

/-- C10 witness: the passing sample of the sample corpus leaves the empty
record list empty while covering its operation in the matched
specification file. -/
theorem c10_only_failures_recorded_witness :
    (processSample sampleSpecMapper
        { trafficOperation := [], validationFailOperations := []
          trafficValidationResult := [], operationUndefinedResult := 0 }
        passingSample).trafficValidationResult = [] ∧
    "c_z" ∈ (((processSample sampleSpecMapper
        { trafficOperation := [], validationFailOperations := []
          trafficValidationResult := [], operationUndefinedResult := 0 }
        passingSample).trafficOperation.lookup "specs/a2021.json").getD []) := by
  have h := c10_only_failures_recorded sampleSpecMapper
    { trafficOperation := [], validationFailOperations := []
      trafficValidationResult := [], operationUndefinedResult := 0 }
    passingSample rfl rfl rfl
  exact ⟨h.1, h.2.1 "specs/a2021.json" (by decide)⟩

/-! ## Coverage bookkeeping invariant: every exercised-operation entry is
a duplicate-free list of operations the mapper declares for that file. -/

theorem recordOperation_invariant (mapper m : List (String × List String)) (f opId : String)
    (hgood : ∃ v, mapper.lookup f = some v ∧ opId ∈ v)
    (hinv : ∀ k ids, m.lookup k = some ids →
      ids.Nodup ∧ ∀ x ∈ ids, ∃ v, mapper.lookup k = some v ∧ x ∈ v) :
    ∀ k ids, (recordOperation m f opId).lookup k = some ids →
      ids.Nodup ∧ ∀ x ∈ ids, ∃ v, mapper.lookup k = some v ∧ x ∈ v := by
  intro k ids hk
  by_cases hkf : k = f
  · subst hkf
    rw [recordOperation_lookup_eq] at hk
    have hcur : ((m.lookup k).getD []).Nodup ∧
        ∀ x ∈ (m.lookup k).getD [], ∃ v, mapper.lookup k = some v ∧ x ∈ v := by
      cases h : m.lookup k with
      | none => simp
      | some cur => simpa using hinv k cur h
    have hids : ids = if ((m.lookup k).getD []).contains opId then (m.lookup k).getD []
        else (m.lookup k).getD [] ++ [opId] := (Option.some.inj hk).symm
    subst hids
    by_cases hc : ((m.lookup k).getD []).contains opId = true
    · rw [if_pos hc]
      exact hcur
    · rw [if_neg hc]
      have hnotin : opId ∉ (m.lookup k).getD [] := by simpa using hc
      constructor
      · simp [List.nodup_append, hcur.1, hnotin]
      · intro x hx
        rcases List.mem_append.mp hx with hx | hx
        · exact hcur.2 x hx
        · simp only [List.mem_singleton] at hx
          subst hx
          exact hgood
  · rw [recordOperation_lookup_ne _ _ _ _ hkf] at hk
    exact hinv k ids hk

theorem mem_findSwaggerByOperationId_good (mapper : List (String × List String))
    (info : OperationContext) (f : String) (hk : (mapper.map Prod.fst).Nodup)
    (h : f ∈ findSwaggerByOperationId mapper info) :
    ∃ v, mapper.lookup f = some v ∧ info.operationId ∈ v := by
  unfold findSwaggerByOperationId at h
  suffices H : ∀ (l : List (String × List String)) (acc : List String),
      f ∈ l.foldl (fun result kv =>
        if kv.2.contains info.operationId &&
            (jsIncludes kv.1 info.apiVersion || jsIncludes (jsToLower kv.1) info.apiVersion) then
          result ++ [kv.1]
        else result) acc →
      f ∈ acc ∨ ∃ kv, kv ∈ l ∧ f = kv.1 ∧ info.operationId ∈ kv.2 by
    rcases H mapper [] h with h1 | ⟨kv, hmem, hf, hop⟩
    · simp at h1
    · subst hf
      exact ⟨kv.2, lookup_of_keysNodup hk hmem, hop⟩
  intro l
  induction l with
  | nil => intro acc h1; exact Or.inl h1
  | cons kv t ih =>
    intro acc h1
    simp only [List.foldl_cons] at h1
    rcases ih _ h1 with h2 | ⟨kv2, hmem, hf, hop⟩
    · by_cases hc : (kv.2.contains info.operationId &&
          (jsIncludes kv.1 info.apiVersion || jsIncludes (jsToLower kv.1) info.apiVersion)) = true
      · rw [if_pos hc] at h2
        rcases List.mem_append.mp h2 with h3 | h3
        · exact Or.inl h3
        · simp only [List.mem_singleton] at h3
          refine Or.inr ⟨kv, by simp, h3, ?_⟩
          have := ((Bool.and_eq_true _ _).mp hc).1
          simpa using this
      · rw [if_neg hc] at h2
        exact Or.inl h2
    · exact Or.inr ⟨kv2, by simp [hmem], hf, hop⟩

theorem mem_findSwaggerByOperationInfo_good (mapper : List (String × List String))
    (info : OperationContext) (f : String) (hk : (mapper.map Prod.fst).Nodup)
    (h : f ∈ findSwaggerByOperationInfo mapper info) :
    ∃ v, mapper.lookup f = some v ∧ info.operationId ∈ v := by
  unfold findSwaggerByOperationInfo at h
  cases hns : info.providerNamespace with
  | none => rw [hns] at h; simp at h
  | some ns =>
    rw [hns] at h
    suffices H : ∀ (l : List (String × List String)) (acc : List String),
        f ∈ l.foldl (fun result kv =>
          if jsIncludes (jsToLower kv.1) ns &&
              (jsIncludes kv.1 info.apiVersion || jsIncludes (jsToLower kv.1) info.apiVersion) then
            if kv.2.contains info.operationId then result ++ [kv.1] else result
          else result) acc →
        f ∈ acc ∨ ∃ kv, kv ∈ l ∧ f = kv.1 ∧ info.operationId ∈ kv.2 by
      rcases H mapper [] h with h1 | ⟨kv, hmem, hf, hop⟩
      · simp at h1
      · subst hf
        exact ⟨kv.2, lookup_of_keysNodup hk hmem, hop⟩
    intro l
    induction l with
    | nil => intro acc h1; exact Or.inl h1
    | cons kv t ih =>
      intro acc h1
      simp only [List.foldl_cons] at h1
      rcases ih _ h1 with h2 | ⟨kv2, hmem, hf, hop⟩
      · by_cases hc1 : (jsIncludes (jsToLower kv.1) ns &&
            (jsIncludes kv.1 info.apiVersion || jsIncludes (jsToLower kv.1) info.apiVersion)) = true
        · rw [if_pos hc1] at h2
          by_cases hc2 : kv.2.contains info.operationId = true
          · rw [if_pos hc2] at h2
            rcases List.mem_append.mp h2 with h3 | h3
            · exact Or.inl h3
            · simp only [List.mem_singleton] at h3
              exact Or.inr ⟨kv, by simp, h3, by simpa using hc2⟩
          · rw [if_neg hc2] at h2
            exact Or.inl h2
        · rw [if_neg hc1] at h2
          exact Or.inl h2
      · exact Or.inr ⟨kv2, by simp [hmem], hf, hop⟩

theorem mem_sampleSwaggerFiles_good (mapper : List (String × List String))
    (s : TrafficSample) (f : String) (hk : (mapper.map Prod.fst).Nodup)
    (h : f ∈ sampleSwaggerFiles mapper s) :
    ∃ v, mapper.lookup f = some v ∧ s.opInfo.operationId ∈ v := by
  unfold sampleSwaggerFiles at h
  by_cases hp : jsIncludes s.url "provider" = true
  · rw [if_pos hp] at h
    exact mem_findSwaggerByOperationInfo_good mapper s.opInfo f hk h
  · rw [if_neg hp] at h
    exact mem_findSwaggerByOperationId_good mapper s.opInfo f hk h

theorem foldFiles_invariant (mapper : List (String × List String)) (s : TrafficSample) :
    ∀ (files : List String) (st : ValidatorState),
      (∀ f ∈ files, ∃ v, mapper.lookup f = some v ∧ s.opInfo.operationId ∈ v) →
      (∀ k ids, st.trafficOperation.lookup k = some ids →
        ids.Nodup ∧ ∀ x ∈ ids, ∃ v, mapper.lookup k = some v ∧ x ∈ v) →
      ∀ k ids, (files.foldl (sampleFileStep s) st).trafficOperation.lookup k = some ids →
        ids.Nodup ∧ ∀ x ∈ ids, ∃ v, mapper.lookup k = some v ∧ x ∈ v := by
  intro files
  induction files with
  | nil => intro st _ hinv; exact hinv
  | cons f t ih =>
    intro st hfiles hinv
    simp only [List.foldl_cons]
    apply ih (sampleFileStep s st f) (fun g hg => hfiles g (by simp [hg]))
    rw [sampleFileStep_trafficOperation]
    exact recordOperation_invariant mapper st.trafficOperation f s.opInfo.operationId
      (hfiles f (by simp)) hinv

theorem processSample_invariant (mapper : List (String × List String))
    (st : ValidatorState) (s : TrafficSample) (hk : (mapper.map Prod.fst).Nodup)
    (hinv : ∀ k ids, st.trafficOperation.lookup k = some ids →
      ids.Nodup ∧ ∀ x ∈ ids, ∃ v, mapper.lookup k = some v ∧ x ∈ v) :
    ∀ k ids, (processSample mapper st s).trafficOperation.lookup k = some ids →
      ids.Nodup ∧ ∀ x ∈ ids, ∃ v, mapper.lookup k = some v ∧ x ∈ v := by
  unfold processSample
  by_cases he : (sampleSwaggerFiles mapper s).isEmpty = true
  · simpa [he] using hinv
  · simp only [he, Bool.false_eq_true, if_false]
    exact foldFiles_invariant mapper s _ st
      (fun f hf => mem_sampleSwaggerFiles_good mapper s f hk hf) hinv

theorem trafficValidateLoop_invariant (mapper : List (String × List String))
    (hk : (mapper.map Prod.fst).Nodup) :
    ∀ (samples : List TrafficSample) (st : ValidatorState),
      (∀ k ids, st.trafficOperation.lookup k = some ids →
        ids.Nodup ∧ ∀ x ∈ ids, ∃ v, mapper.lookup k = some v ∧ x ∈ v) →
      ∀ k ids, (trafficValidateLoop mapper st samples).trafficOperation.lookup k = some ids →
        ids.Nodup ∧ ∀ x ∈ ids, ∃ v, mapper.lookup k = some v ∧ x ∈ v := by
  intro samples
  induction samples with
  | nil => intro st hinv; exact hinv
  | cons s t ih =>
    intro st hinv
    cases hr : s.raises with
    | some msg =>
      simp only [trafficValidateLoop, hr]
      exact hinv
    | none =>
      simp only [trafficValidateLoop, hr]
      exact ih _ (processSample_invariant mapper st s hk hinv)

/-! ## Shape of a produced coverage record -/

theorem mem_computeCoverage (apiVer : String → String)
    (mapper : List (String × List String)) (st : ValidatorState)
    (rec : OperationCoverageInfo) (h : rec ∈ computeCoverage apiVer mapper st) :
    ∃ kv, kv ∈ mapper ∧ computeCoverageEntry apiVer st kv.1 kv.2 = some rec := by
  unfold computeCoverage at h
  suffices H : ∀ (l : List (String × List String)) (acc : List OperationCoverageInfo),
      rec ∈ l.foldl (fun acc kv => acc ++ (computeCoverageEntry apiVer st kv.1 kv.2).toList) acc →
      rec ∈ acc ∨ ∃ kv, kv ∈ l ∧ computeCoverageEntry apiVer st kv.1 kv.2 = some rec by
    rcases H mapper [] h with h1 | h1
    · simp at h1
    · exact h1
  intro l
  induction l with
  | nil => intro acc h1; exact Or.inl h1
  | cons kv t ih =>
    intro acc h1
    simp only [List.foldl_cons] at h1
    rcases ih _ h1 with h2 | ⟨kv2, hm, he⟩
    · rcases List.mem_append.mp h2 with h3 | h3
      · exact Or.inl h3
      · refine Or.inr ⟨kv, by simp, ?_⟩
        cases he2 : computeCoverageEntry apiVer st kv.1 kv.2 with
        | none => rw [he2] at h3; simp at h3
        | some r =>
          rw [he2] at h3
          simp only [Option.toList_some, List.mem_singleton] at h3
          rw [h3]
    · exact Or.inr ⟨kv2, by simp [hm], he⟩

theorem computeCoverageEntry_some_eq (apiVer : String → String) (st : ValidatorState)
    (k : String) (v : List String) (rec : OperationCoverageInfo)
    (h : computeCoverageEntry apiVer st k v = some rec) :
    ∃ ids, st.trafficOperation.lookup k = some ids ∧ v.length ≠ 0 ∧
      rec = { spec := k
              apiVersion := apiVer k
              coveredOperations := ids.length
              coverageRate := (ids.length : ℚ) / (v.length : ℚ)
              unCoveredOperations := (v.length : Int) - (ids.length : Int)
              totalOperations := v.length
              validationFailOperations := ((st.validationFailOperations.lookup k).getD []).length
              coveredOperationsList := jsSortArray cmpMeta (ids.map OperationMeta.mk)
              unCoveredOperationsList := jsSortArray cmpInner ((ids.foldl jsSpliceRemove v).map
                (fun e => unCoveredOperationsFormatInner.mk ((jsSplitOn e '_').headD "") e))
              unCoveredOperationsListGen := jsSortArray cmpBatch
                ((groupValuesInOrder ((ids.foldl jsSpliceRemove v).map
                  (fun e => unCoveredOperationsFormatInner.mk
                    ((jsSplitOn e '_').headD "") e))).map unCoveredOperationsFormat.mk) } := by
  unfold computeCoverageEntry at h
  cases hl : st.trafficOperation.lookup k with
  | none =>
    rw [hl] at h
    simp at h
  | some ids =>
    rw [hl] at h
    dsimp only at h
    by_cases hlen : v.length ≠ 0
    · rw [if_pos hlen] at h
      exact ⟨ids, rfl, hlen, (Option.some.inj h).symm⟩
    · rw [if_neg hlen] at h
      simp at h

/-- C8: every record of the coverage report has a positive operation
total, a covered count bounded by the total, and a rate that is exactly
the quotient of the two; its specification was matched by some sample,
and a specification with an empty operation list or one never matched by
any sample contributes no record. -/
theorem c8_coverage_rate_invariant (apiVer : String → String)
    (mapper : List (String × List String)) (samples : List TrafficSample)
    (rec : OperationCoverageInfo) (k2 : String) (v2 : List String)
    (hk : (mapper.map Prod.fst).Nodup)
    (hrec : rec ∈ (TrafficValidator.validate apiVer mapper samples).operationCoverageResult) :
    0 < rec.totalOperations ∧
    rec.coveredOperations ≤ rec.totalOperations ∧
    rec.coverageRate = (rec.coveredOperations : ℚ) / (rec.totalOperations : ℚ) ∧
    ((trafficValidateLoop mapper
        { trafficOperation := [], validationFailOperations := []
          trafficValidationResult := [], operationUndefinedResult := 0 }
        samples).trafficOperation.lookup rec.spec).isSome = true ∧
    ((k2, v2) ∈ mapper → v2 = [] → rec.spec ≠ k2) ∧
    ((trafficValidateLoop mapper
        { trafficOperation := [], validationFailOperations := []
          trafficValidationResult := [], operationUndefinedResult := 0 }
        samples).trafficOperation.lookup k2 = none → rec.spec ≠ k2) := by
  simp only [TrafficValidator.validate] at hrec
  obtain ⟨kv, hmem, hentry⟩ := mem_computeCoverage _ _ _ _ hrec
  obtain ⟨ids, hl, hlen, heq⟩ := computeCoverageEntry_some_eq _ _ _ _ _ hentry
  have hinv := trafficValidateLoop_invariant mapper hk samples
    { trafficOperation := [], validationFailOperations := []
      trafficValidationResult := [], operationUndefinedResult := 0 }
    (by intro k ids2 h2; simp [List.lookup] at h2) kv.1 ids hl
  have hlook : mapper.lookup kv.1 = some kv.2 := lookup_of_keysNodup hk hmem
  have hsub : ∀ x ∈ ids, x ∈ kv.2 := by
    intro x hx
    obtain ⟨v', hv', hxv⟩ := hinv.2 x hx
    rw [hlook] at hv'
    exact (Option.some.inj hv') ▸ hxv
  subst heq
  refine ⟨Nat.pos_of_ne_zero hlen, ?_, rfl, ?_, ?_, ?_⟩
  · exact (List.subperm_of_subset hinv.1 hsub).length_le
  · simp [hl]
  · intro hmem2 hnil heq2
    have hlook2 : mapper.lookup k2 = some v2 := lookup_of_keysNodup hk hmem2
    simp only at heq2
    rw [heq2] at hlook
    rw [hlook2] at hlook
    have : kv.2 = v2 := (Option.some.inj hlook).symm
    rw [this, hnil] at hlen
    exact hlen rfl
  · intro hnone heq2
    simp only at heq2
    rw [heq2] at hl
    rw [hnone] at hl
    exact Option.noConfusion hl

/-- C8 witness: the invariant applied to the record the one-sample corpus
produces: one of three operations covered, rate exactly one third of one. -/
theorem c8_coverage_rate_invariant_witness :
    0 < sampleCoverageRecord.totalOperations ∧
    sampleCoverageRecord.coveredOperations ≤ sampleCoverageRecord.totalOperations ∧
    sampleCoverageRecord.coverageRate =
      (sampleCoverageRecord.coveredOperations : ℚ) / (sampleCoverageRecord.totalOperations : ℚ) ∧
    ((trafficValidateLoop sampleSpecMapper
        { trafficOperation := [], validationFailOperations := []
          trafficValidationResult := [], operationUndefinedResult := 0 }
        [passingSample]).trafficOperation.lookup sampleCoverageRecord.spec).isSome = true ∧
    (("unmatched.json", ([] : List String)) ∈ sampleSpecMapper → ([] : List String) = [] →
      sampleCoverageRecord.spec ≠ "unmatched.json") ∧
    ((trafficValidateLoop sampleSpecMapper
        { trafficOperation := [], validationFailOperations := []
          trafficValidationResult := [], operationUndefinedResult := 0 }
        [passingSample]).trafficOperation.lookup "unmatched.json" = none →
      sampleCoverageRecord.spec ≠ "unmatched.json") := by
  have hrec : sampleCoverageRecord ∈ (TrafficValidator.validate (fun p => p) sampleSpecMapper
      [passingSample]).operationCoverageResult := by
    unfold sampleCoverageRecord
    cases hE : (TrafficValidator.validate (fun p => p) sampleSpecMapper
        [passingSample]).operationCoverageResult with
    | nil => exact absurd hE (by decide)
    | cons r t =>
      simp [List.headD]
  exact c8_coverage_rate_invariant (fun p => p) sampleSpecMapper [passingSample]
    sampleCoverageRecord "unmatched.json" [] (by decide) hrec

/-- C9 counterexample: one passing sample against a specification whose
uncovered operations are a_x and B_y: the aggregator emits the uncovered
batches in the order a before B, although code-unit lexical order puts B
before a, so the batches are not sorted lexically by their group key. -/
theorem c9_counterexample :
    ((TrafficValidator.validate (fun p => p) sampleSpecMapper
        [passingSample]).operationCoverageResult).map
      (fun r => r.unCoveredOperationsListGen.map batchKey) = [["a", "B"]] ∧
    jsStrLeB "a" "B" = false ∧
    ¬ (∀ rec ∈ (TrafficValidator.validate (fun p => p) sampleSpecMapper
        [passingSample]).operationCoverageResult,
      List.Pairwise (fun b1 b2 => jsStrLeB (batchKey b1) (batchKey b2) = true)
        rec.unCoveredOperationsListGen) := by
  refine ⟨by decide, by decide, ?_⟩
  intro hall
  have h1 : ((TrafficValidator.validate (fun p => p) sampleSpecMapper
      [passingSample]).operationCoverageResult).length = 1 := by decide
  have h2 := hall sampleCoverageRecord (by
    unfold sampleCoverageRecord
    cases hE : (TrafficValidator.validate (fun p => p) sampleSpecMapper
        [passingSample]).operationCoverageResult with
    | nil => exact absurd hE (by decide)
    | cons r t =>
      simp [List.headD])
  have h3 : ¬ List.Pairwise (fun b1 b2 => jsStrLeB (batchKey b1) (batchKey b2) = true)
      sampleCoverageRecord.unCoveredOperationsListGen := by decide
  exact h3 h2

/-- C9 amended: in every record of the coverage report the covered and
uncovered operation lists are sorted lexically (code-unit order) by
operation identifier, while the uncovered batches are sorted by the
default-locale collation (localeCompare) of their group key, which orders
letters before case and so differs from lexical order on mixed-case keys. -/
theorem c9_report_lists_sorted (apiVer : String → String)
    (mapper : List (String × List String)) (samples : List TrafficSample)
    (rec : OperationCoverageInfo)
    (hrec : rec ∈ (TrafficValidator.validate apiVer mapper samples).operationCoverageResult) :
    List.Pairwise (fun a b => jsStrLeB a.operationId b.operationId = true)
      rec.coveredOperationsList ∧
    List.Pairwise (fun a b => jsStrLeB a.operationId b.operationId = true)
      rec.unCoveredOperationsList ∧
    List.Pairwise (fun a b => ¬ jsLocaleCompare (batchKey a) (batchKey b) > 0)
      rec.unCoveredOperationsListGen := by
  simp only [TrafficValidator.validate] at hrec
  obtain ⟨kv, hmem, hentry⟩ := mem_computeCoverage _ _ _ _ hrec
  obtain ⟨ids, hl, hlen, heq⟩ := computeCoverageEntry_some_eq _ _ _ _ _ hentry
  subst heq
  refine ⟨?_, ?_, ?_⟩
  · exact (jsSortArray_sorted cmpMeta cmpMeta_refl cmpMeta_tot cmpMeta_trans _).imp
      (fun h => (cmpIdStr_nonpos_iff _ _).mp h)
  · exact (jsSortArray_sorted cmpInner cmpInner_refl cmpInner_tot cmpInner_trans _).imp
      (fun h => (cmpIdStr_nonpos_iff _ _).mp h)
  · exact jsSortArray_sorted cmpBatch cmpBatch_refl cmpBatch_tot cmpBatch_trans _

/-- C9 amended witness: the sorting statement applied to the record of the
one-sample corpus. -/
theorem c9_report_lists_sorted_witness :
    List.Pairwise (fun a b => jsStrLeB a.operationId b.operationId = true)
      sampleCoverageRecord.coveredOperationsList ∧
    List.Pairwise (fun a b => jsStrLeB a.operationId b.operationId = true)
      sampleCoverageRecord.unCoveredOperationsList ∧
    List.Pairwise (fun a b => ¬ jsLocaleCompare (batchKey a) (batchKey b) > 0)
      sampleCoverageRecord.unCoveredOperationsListGen := by
  apply c9_report_lists_sorted (fun p => p) sampleSpecMapper [passingSample]
  unfold sampleCoverageRecord
  cases hE : (TrafficValidator.validate (fun p => p) sampleSpecMapper
      [passingSample]).operationCoverageResult with
  | nil => exact absurd hE (by decide)
  | cons r t =>
    simp [List.headD]
